import Mathlib

/-!
Verification development for the name-that-thing image pipeline.

The TypeScript sources are shallowly embedded:
  pure computations (dimension arithmetic, the pixelation raster transform,
  validation predicates, retry scheduling) become Lean functions on Nat / Rat;
  browser effects (canvas context acquisition, blob encoding, IndexedDB puts,
  image decoding) become explicit environment records of oracles, and each
  fallible operation returns an Except value mirroring the thrown messages.
Blobs carry their byte size and an abstract content tag; a missing slot of the
dynamic level record is an absent key of an association list, a null slot is a
key mapped to none, matching the falsy-check semantics of the source.
-/

namespace NTT

/-- Binary artifact: byte size plus an abstract identity for its bytes. -/
structure Blob where
  size : Nat
  content : Nat
deriving DecidableEq, Repr

/-- Dynamic level record built with string keys levelN in the source
(`levels[levelKey] = blob`); keys are the level ordinals, a key mapped to
none models an explicit null entry, an absent key a missing property. -/
abbrev Levels : Type := List (Nat × Option Blob)

/-- Property read `levels[levelK]`: none when the key is absent or null. -/
def levelGet (ls : Levels) (k : Nat) : Option Blob :=
  match ls.find? (fun e => e.1 = k) with
  | some e => e.2
  | none => none

/-- Property write `levels[levelK] = blob` (overwrite or insert). -/
def setLevel (ls : Levels) (k : Nat) (b : Blob) : Levels :=
  match ls.find? (fun e => e.1 = k) with
  | some _ => ls.map (fun e => if e.1 = k then (k, some b) else e)
  | none => ls ++ [(k, some b)]

/-- Size read with null/missing defaulting, `levels.levelK?.size || 0`. -/
def levelSize (ls : Levels) (k : Nat) : Nat :=
  match levelGet ls k with
  | some b => b.size
  | none => 0

/-- Embeds validatePixelationLevels (src/unnamed/part_002, lines 493-505):
each of level1..level4 must be present with non-zero size. -/
def validatePixelationLevels (ls : Levels) : Bool :=
  [1, 2, 3, 4].all (fun k =>
    match levelGet ls k with
    | some b => decide (0 < b.size)
    | none => false)

/-- Working surface: a canvas raster; data maps a flat RGBA byte index to a
channel value, as read and written through getImageData/putImageData. -/
structure Surface where
  width : Nat
  height : Nat
  data : Nat → Nat

/-- Math.round on the non-negative quotient num/den: floor(num/den + 1/2). -/
def jsRound (num den : Nat) : Nat := (2 * num + den) / (2 * den)

/-- Dimension arithmetic of resizeImage (src/src/utils/index.ts, lines 97-109):
scale down to maxWidth, else scale up to minWidth, else pass through, with the
height recomputed by Math.round(height * target / width). -/
def resizeDims (w h maxWidth minWidth : Nat) : Nat × Nat :=
  if maxWidth < w then (maxWidth, jsRound (h * maxWidth) w)
  else if w < minWidth then (minWidth, jsRound (h * minWidth) w)
  else (w, h)

/-- Environment for resizeImage: 2d-context acquisition, the high-quality
drawImage resampling (an oracle producing the scaled raster bytes), and
canvas.toBlob which may yield null. -/
structure ResizeEnv where
  ctxOk : Bool
  resample : Surface → Nat → Nat → (Nat → Nat)
  encode : Surface → ℚ → Option Blob

/-- Embeds resizeImage (src/src/utils/index.ts, lines 78-138). -/
def resizeImage (env : ResizeEnv) (img : Surface) (maxWidth : Nat) (quality : ℚ)
    (minWidth : Nat) : Except String (Surface × Blob × (Nat × Nat)) :=
  if ¬env.ctxOk then .error "Could not get canvas context"
  else
    let dims := resizeDims img.width img.height maxWidth minWidth
    let canvas : Surface := ⟨dims.1, dims.2, env.resample img dims.1 dims.2⟩
    match env.encode canvas quality with
    | some b => .ok (canvas, b, dims)
    | none => .error "Failed to create blob"

/-- Concrete resize environment used to instantiate theorems. -/
def wEnvC6 : ResizeEnv :=
  { ctxOk := true
    resample := fun _ _ _ => fun _ => 0
    encode := fun _ _ => some ⟨10, 0⟩ }

/-- Concrete 2000 x 1000 decoded image. -/
def wImgC6 : Surface := ⟨2000, 1000, fun _ => 0⟩

/-- The canvas resizeImage builds for wImgC6 at maxWidth 1280. -/
def wCanvasC6 : Surface := ⟨1280, 640, wEnvC6.resample wImgC6 1280 640⟩

theorem jsRound_bounds (n d : Nat) (hd : 0 < d) :
    2 * d * jsRound n d ≤ 2 * n + d ∧ 2 * n + d < 2 * d * jsRound n d + 2 * d := by
  have h2d : 0 < 2 * d := by omega
  have hdm := Nat.div_add_mod (2 * n + d) (2 * d)
  have hml : (2 * n + d) % (2 * d) < 2 * d := Nat.mod_lt _ h2d
  unfold jsRound
  omega

/-- C6: for every decoded image, if native width > maxWidth the output width
equals maxWidth and the output height equals round(nativeHeight * maxWidth /
nativeWidth); else if native width < minWidth the output width equals minWidth
with height recomputed by the same aspect-ratio rule; otherwise the dimensions
pass through unchanged. The scaled branches additionally preserve the aspect
ratio within integer rounding: |2 * w * outH - 2 * h * outW| ≤ w. -/
theorem c6_resize_bounds (env : ResizeEnv) (img : Surface) (maxWidth minWidth : Nat)
    (quality : ℚ) (canvas : Surface) (b : Blob) (dims : Nat × Nat)
    (hw : 0 < img.width)
    (h : resizeImage env img maxWidth quality minWidth = .ok (canvas, b, dims)) :
    (maxWidth < img.width →
       dims.1 = maxWidth ∧ dims.2 = jsRound (img.height * maxWidth) img.width ∧
       2 * img.width * dims.2 ≤ 2 * (img.height * maxWidth) + img.width ∧
       2 * (img.height * maxWidth) + img.width < 2 * img.width * dims.2 + 2 * img.width)
    ∧ (img.width ≤ maxWidth → img.width < minWidth →
       dims.1 = minWidth ∧ dims.2 = jsRound (img.height * minWidth) img.width ∧
       2 * img.width * dims.2 ≤ 2 * (img.height * minWidth) + img.width ∧
       2 * (img.height * minWidth) + img.width < 2 * img.width * dims.2 + 2 * img.width)
    ∧ (img.width ≤ maxWidth → minWidth ≤ img.width → dims = (img.width, img.height))
    ∧ canvas.width = dims.1 ∧ canvas.height = dims.2 := by
  unfold resizeImage at h
  by_cases hc : env.ctxOk
  · simp only [hc, not_true, if_false, ite_false, Bool.not_true] at h
    rcases he : env.encode ⟨(resizeDims img.width img.height maxWidth minWidth).1,
        (resizeDims img.width img.height maxWidth minWidth).2,
        env.resample img (resizeDims img.width img.height maxWidth minWidth).1
          (resizeDims img.width img.height maxWidth minWidth).2⟩ quality with _ | eb
    · rw [he] at h
      exact absurd h (by simp)
    · rw [he] at h
      simp only [Except.ok.injEq, Prod.mk.injEq] at h
      obtain ⟨hcv, _, hd⟩ := h
      subst hd
      refine ⟨?_, ?_, ?_, ?_, ?_⟩
      · intro h1
        have hdim : resizeDims img.width img.height maxWidth minWidth
            = (maxWidth, jsRound (img.height * maxWidth) img.width) := by
          unfold resizeDims
          rw [if_pos h1]
        rw [hdim]
        exact ⟨rfl, rfl, (jsRound_bounds _ _ hw).1, (jsRound_bounds _ _ hw).2⟩
      · intro h1 h2
        have hdim : resizeDims img.width img.height maxWidth minWidth
            = (minWidth, jsRound (img.height * minWidth) img.width) := by
          unfold resizeDims
          rw [if_neg (by omega), if_pos h2]
        rw [hdim]
        exact ⟨rfl, rfl, (jsRound_bounds _ _ hw).1, (jsRound_bounds _ _ hw).2⟩
      · intro h1 h2
        unfold resizeDims
        rw [if_neg (by omega), if_neg (by omega)]
      · rw [← hcv]
      · rw [← hcv]
  · simp only [hc, Bool.not_false, if_true, ite_true] at h
    exact absurd h (by simp)

/-- Witness for c6_resize_bounds: a 2000 x 1000 image with maxWidth 1280
resizes to 1280 x 640 with the aspect bounds. -/
theorem c6_resize_bounds_witness :
    0 < wImgC6.width ∧ 1280 < wImgC6.width ∧
    (((1280:Nat), (640:Nat)).1 = 1280 ∧
      ((1280:Nat), (640:Nat)).2 = jsRound (wImgC6.height * 1280) wImgC6.width ∧
      2 * wImgC6.width * ((1280:Nat), (640:Nat)).2
        ≤ 2 * (wImgC6.height * 1280) + wImgC6.width ∧
      2 * (wImgC6.height * 1280) + wImgC6.width
        < 2 * wImgC6.width * ((1280:Nat), (640:Nat)).2 + 2 * wImgC6.width) :=
  ⟨by decide, by decide,
    (c6_resize_bounds wEnvC6 wImgC6 1280 800 (9/10) wCanvasC6 ⟨10, 0⟩ (1280, 640)
      (by decide) rfl).1 (by decide)⟩

/-- Image record persisted by the store (src/src/types, GameImage). -/
structure GameImage where
  id : String
  categoryId : String
  originalName : String
  mimeType : String
  originalSize : Nat
  processedSize : Nat
  width : Nat
  height : Nat
  pixelationLevels : Levels
  uploadedAt : Nat
  processedAt : Nat
deriving DecidableEq, Repr

/-- Errors thrown by DatabaseService.saveImage. -/
inductive SaveErr where
  | missingLevels (keys : List Nat)
  | putFailed (which : String)
deriving DecidableEq, Repr

/-- IndexedDB writes performed by saveImage, in order. -/
inductive StoreOp where
  | putImage (recordId : String)
  | putBlob (recordId : String) (level : Nat) (b : Blob)
deriving DecidableEq, Repr

/-- Environment for saveImage: outcome of the metadata put and of each
per-level blob put. -/
structure SaveEnv where
  putImageOk : Bool
  putBlobOk : Nat → Bool

/-- Blob-store loop of saveImage (src/unnamed/part_003, lines 311-338):
iterates the entries of pixelationLevels, skips null blobs, stores each
remaining blob in its own transaction and rejects on the first failure. -/
def saveBlobs (env : SaveEnv) (recordId : String) :
    Levels → List StoreOp → Except SaveErr Unit × List StoreOp
  | [], acc => (.ok (), acc)
  | (_, none) :: rest, acc => saveBlobs env recordId rest acc
  | (k, some b) :: rest, acc =>
    if env.putBlobOk k then
      saveBlobs env recordId rest (acc ++ [.putBlob recordId k b])
    else (.error (.putFailed "blob"), acc)

/-- Embeds DatabaseService.saveImage (src/unnamed/part_003, lines 250-341):
computes the four level sizes with null defaulting to 0, throws naming the
zero-size levels before any write when not all four are positive, otherwise
puts the metadata record and then each blob. -/
def saveImage (env : SaveEnv) (image : GameImage) :
    Except SaveErr Unit × List StoreOp :=
  let ls := image.pixelationLevels
  let levelSizes : List (Nat × Nat) :=
    [(1, levelSize ls 1), (2, levelSize ls 2), (3, levelSize ls 3), (4, levelSize ls 4)]
  let hasAllLevels : Bool :=
    decide (0 < levelSize ls 1) && decide (0 < levelSize ls 2) &&
    decide (0 < levelSize ls 3) && decide (0 < levelSize ls 4)
  if hasAllLevels then
    if env.putImageOk then saveBlobs env image.id ls [.putImage image.id]
    else (.error (.putFailed "image metadata"), [])
  else
    (.error (.missingLevels ((levelSizes.filter (fun e => e.2 = 0)).map (fun e => e.1))), [])

theorem validate_iff_sizes (ls : Levels) :
    validatePixelationLevels ls = true ↔
      (0 < levelSize ls 1 ∧ 0 < levelSize ls 2 ∧ 0 < levelSize ls 3 ∧ 0 < levelSize ls 4) := by
  unfold validatePixelationLevels levelSize
  rcases h1 : levelGet ls 1 with _ | b1 <;>
    rcases h2 : levelGet ls 2 with _ | b2 <;>
      rcases h3 : levelGet ls 3 with _ | b3 <;>
        rcases h4 : levelGet ls 4 with _ | b4 <;>
          simp [h1, h2, h3, h4]

/-- C9: saveImage raises an error naming the missing levels whenever asked to
persist an image record whose four pixelation levels are not all present with
non-zero size, and stores nothing for such a record; a record it accepts
satisfies the completeness validator. -/
theorem c9_save_rejects_incomplete (env : SaveEnv) (image : GameImage) :
    (validatePixelationLevels image.pixelationLevels = false →
      (∃ ks, saveImage env image = (.error (.missingLevels ks), []) ∧ ks ≠ [] ∧
        ∀ k, k ∈ ks ↔ (k ∈ ([1, 2, 3, 4] : List Nat) ∧
          levelSize image.pixelationLevels k = 0)))
    ∧ (∀ u ops, saveImage env image = (.ok u, ops) →
        validatePixelationLevels image.pixelationLevels = true) := by
  constructor
  · intro hval
    have hsz : ¬(0 < levelSize image.pixelationLevels 1 ∧
        0 < levelSize image.pixelationLevels 2 ∧
        0 < levelSize image.pixelationLevels 3 ∧
        0 < levelSize image.pixelationLevels 4) := by
      intro hcontra
      rw [(validate_iff_sizes image.pixelationLevels).mpr hcontra] at hval
      exact absurd hval (by simp)
    refine ⟨(([(1, levelSize image.pixelationLevels 1), (2, levelSize image.pixelationLevels 2),
        (3, levelSize image.pixelationLevels 3), (4, levelSize image.pixelationLevels 4)] :
        List (Nat × Nat)).filter (fun e => e.2 = 0)).map (fun e => e.1), ?_, ?_, ?_⟩
    · unfold saveImage
      rw [if_neg (by simpa using hsz)]
    · simp only [ne_eq, List.map_eq_nil_iff, List.filter_eq_nil_iff]
      intro hall
      apply hsz
      have g1 := hall (1, levelSize image.pixelationLevels 1) (by simp)
      have g2 := hall (2, levelSize image.pixelationLevels 2) (by simp)
      have g3 := hall (3, levelSize image.pixelationLevels 3) (by simp)
      have g4 := hall (4, levelSize image.pixelationLevels 4) (by simp)
      simp only [decide_eq_true_eq] at g1 g2 g3 g4
      omega
    · intro k
      simp only [List.mem_map, List.mem_filter, List.mem_cons, List.mem_singleton,
        decide_eq_true_eq]
      constructor
      · rintro ⟨⟨k0, s0⟩, ⟨hmem, hzero⟩, rfl⟩
        rcases hmem with h | h | h | h | h <;> simp_all
      · rintro ⟨hmem, hzero⟩
        refine ⟨(k, levelSize image.pixelationLevels k), ⟨?_, by simpa using hzero⟩, rfl⟩
        rcases hmem with h | h | h | h <;> simp_all
  · intro u ops hok
    unfold saveImage at hok
    by_cases hall : (decide (0 < levelSize image.pixelationLevels 1) &&
        decide (0 < levelSize image.pixelationLevels 2) &&
        decide (0 < levelSize image.pixelationLevels 3) &&
        decide (0 < levelSize image.pixelationLevels 4) : Bool)
    · apply (validate_iff_sizes image.pixelationLevels).mpr
      simp only [Bool.and_eq_true, decide_eq_true_eq] at hall
      exact ⟨hall.1.1.1, hall.1.1.2, hall.1.2, hall.2⟩
    · rw [if_neg hall] at hok
      exact absurd hok (by simp)

/-- Record with an empty level2 blob used to instantiate c9. -/
def wImgC9 : GameImage :=
  { id := "img1", categoryId := "cat1", originalName := "a.jpg",
    mimeType := "image/jpeg", originalSize := 100, processedSize := 90,
    width := 10, height := 10,
    pixelationLevels :=
      [(1, some ⟨5, 1⟩), (2, some ⟨0, 2⟩), (3, some ⟨5, 3⟩), (4, some ⟨5, 4⟩)],
    uploadedAt := 0, processedAt := 0 }

/-- Witness for c9_save_rejects_incomplete: a record whose level2 blob has size 0
is rejected with level2 named and nothing stored. -/
theorem c9_save_rejects_incomplete_witness :
    validatePixelationLevels wImgC9.pixelationLevels = false ∧
    (∃ ks, saveImage ⟨true, fun _ => true⟩ wImgC9 = (.error (.missingLevels ks), []) ∧
      ks ≠ [] ∧
      ∀ k, k ∈ ks ↔ (k ∈ ([1, 2, 3, 4] : List Nat) ∧
        levelSize wImgC9.pixelationLevels k = 0)) :=
  ⟨by decide,
    (c9_save_rejects_incomplete ⟨true, fun _ => true⟩ wImgC9).1 (by decide)⟩

/-- Flat RGBA index of channel c of pixel (x, y): ((y * width + x) * 4) + c. -/
def pxIdx (w x y c : Nat) : Nat := (y * w + x) * 4 + c

/-- Pixels visited by the block loops at block start (x, y): dy < pixelSize
with y + dy < height, dx < pixelSize with x + dx < width. -/
def blockPixels (w h p x y : Nat) : List (Nat × Nat) :=
  (List.range (min p (h - y))).flatMap (fun dy =>
    (List.range (min p (w - x))).map (fun dx => (x + dx, y + dy)))

/-- Number of pixels in the clipped block (the count accumulator). -/
def blockCount (w h p x y : Nat) : Nat := min p (h - y) * min p (w - x)

/-- Sum of channel c over the clipped block read from raster d. -/
def blockSumC (d : Nat → Nat) (w h p x y c : Nat) : Nat :=
  ((blockPixels w h p x y).map (fun e => d (pxIdx w e.1 e.2 c))).sum

/-- Math.round(channel sum / count): the per-block average color channel. -/
def blockAvg (d : Nat → Nat) (w h p x y c : Nat) : Nat :=
  jsRound (blockSumC d w h p x y c) (blockCount w h p x y)

/-- All flat byte indices of the clipped block (4 channels per pixel). -/
def blockIndices (w h p x y : Nat) : List Nat :=
  (blockPixels w h p x y).flatMap (fun e => (List.range 4).map (fun c => pxIdx w e.1 e.2 c))

/-- Write channel values v over every byte of the clipped block. -/
def writeBlock (w h p x y : Nat) (v : Nat → Nat) (d : Nat → Nat) : Nat → Nat :=
  (blockIndices w h p x y).foldl (fun acc i => Function.update acc i (v (i % 4))) d

/-- One iteration of the block loop of createPixelatedImage (src/src/utils/
index.ts, lines 183-216): compute the average of each channel over the block
from the current raster, then overwrite the block with it (guarded by
count > 0 as in the source). -/
def applyBlock (w h p x y : Nat) (d : Nat → Nat) : Nat → Nat :=
  if 0 < blockCount w h p x y then
    writeBlock w h p x y (fun c => blockAvg d w h p x y c) d
  else d

/-- Loop starts 0, p, 2p, ... below len (`for (v = 0; v < len; v += p)`),
for p > 0. -/
def starts (p len : Nat) : List Nat :=
  (List.range ((len + p - 1) / p)).map (fun k => p * k)

/-- The in-place double block loop of createPixelatedImage; the source runs it
only with pixelSize > 0 (pixelSize 0 branches to the plain encode path in the
level generator before this function is called). -/
def pixelateLoop (w h p : Nat) (d : Nat → Nat) : Nat → Nat :=
  (starts p h).foldl
    (fun dAcc y => (starts p w).foldl (fun dRow x => applyBlock w h p x y dRow) dAcc) d

/-- The raster createPixelatedImage passes to putImageData and then encodes. -/
def pixelatedSurface (s : Surface) (p : Nat) : Surface :=
  ⟨s.width, s.height, pixelateLoop s.width s.height p s.data⟩

/-- Result of a canvas.toBlob call under a watchdog timer: the callback fired
with a possibly-null blob, or the timeout rejected first. -/
inductive EncodeOutcome where
  | done (b : Option Blob)
  | timeout
deriving DecidableEq, Repr

/-- Environment of one generation pass, indexed by level position i:
context acquisition in the level loop, context / getImageData / putImageData
inside createPixelatedImage, and the toBlob encoder. -/
structure Env where
  ctxOk : Nat → Bool
  pctxOk : Nat → Bool
  getDataOk : Nat → Bool
  putDataOk : Nat → Bool
  encode : Nat → Surface → ℚ → EncodeOutcome

/-- Embeds createPixelatedImage (src/src/utils/index.ts, lines 143-249) for
the level at position i: context, dimension and pixel-buffer checks, the block
averaging transform, then encoding with the 15-second watchdog. -/
def createPixelatedImage (env : Env) (i : Nat) (canvas : Surface) (pixelSize : Nat)
    (quality : ℚ) : Except String Blob :=
  if ¬env.pctxOk i then .error "Could not get canvas context"
  else if canvas.width = 0 ∨ canvas.height = 0 then .error "Invalid canvas dimensions"
  else if ¬env.getDataOk i then .error "Failed to get image data"
  else if ¬env.putDataOk i then .error "Failed to put image data"
  else
    match env.encode i (pixelatedSurface canvas pixelSize) quality with
    | .timeout => .error "Timeout creating pixelated image"
    | .done none => .error "Failed to create pixelated blob"
    | .done (some b) =>
      if 0 < b.size then .ok b else .error "Failed to create pixelated blob"

/-- Structured form of the errors thrown by the level generator and retry
controller; render below rebuilds the exact message strings. -/
inductive PErr where
  | levelFailed (key : Nat) (msg : String)
  | invalidLevels (keys : List Nat)
  | finalCheck
  | retriesExhausted (retries : Nat) (cause : PErr)
deriving DecidableEq, Repr

def renderKeys (ks : List Nat) : String :=
  String.intercalate ", " (ks.map (fun k => "level" ++ toString k))

/-- Message strings of the thrown errors, as built by the source. -/
def render : PErr → String
  | .levelFailed k msg =>
      "Failed to create pixelation level level" ++ toString k ++ ": " ++ msg
  | .invalidLevels ks =>
      "Failed to create valid pixelation levels: " ++ renderKeys ks
  | .finalCheck => "Created pixelation levels failed final validation check"
  | .retriesExhausted n cause =>
      "Failed to create pixelation levels after " ++ toString n ++
        " retries and fallback attempt: " ++ render cause

def timeoutOriginalMsg (k : Nat) : String :=
  "Timeout creating original blob for level" ++ toString k

def emptyOriginalMsg (k : Nat) : String :=
  "Failed to create original blob for level" ++ toString k

def emptyPixelatedMsg (k : Nat) : String :=
  "Failed to create pixelated blob for level" ++ toString k

/-- Per-level body of createPixelationLevelsInternal (src/unnamed/part_002,
lines 296-379): acquire a context for the level canvas copy (the copy holds
the same raster as the shared source), then for pixelSize 0 encode the copy
unchanged under the 15-second watchdog, otherwise run createPixelatedImage;
every inner failure is rethrown as the level-naming error of the catch. -/
def createLevelBlob (env : Env) (canvas : Surface) (i pixelSize : Nat)
    (quality : ℚ) : Except PErr Blob :=
  if ¬env.ctxOk i then .error (.levelFailed (i + 1) "Could not get canvas context")
  else if pixelSize = 0 then
    match env.encode i canvas quality with
    | .timeout => .error (.levelFailed (i + 1) (timeoutOriginalMsg (i + 1)))
    | .done none => .error (.levelFailed (i + 1) (emptyOriginalMsg (i + 1)))
    | .done (some b) =>
      if 0 < b.size then .ok b
      else .error (.levelFailed (i + 1) (emptyOriginalMsg (i + 1)))
  else
    match createPixelatedImage env i canvas pixelSize quality with
    | .error m => .error (.levelFailed (i + 1) m)
    | .ok b =>
      if 0 < b.size then .ok b
      else .error (.levelFailed (i + 1) (emptyPixelatedMsg (i + 1)))

/-- Loop of createPixelationLevelsInternal over the block-size list (position
i maps to key i + 1), with the redundant post-creation check and the final
comprehensive validation of all entries set so far. -/
def cpliGo (env : Env) (canvas : Surface) (quality : ℚ) :
    List Nat → Nat → Levels → Except PErr Levels
  | [], _, acc =>
    let invalid := acc.filter (fun e =>
      match e.2 with
      | some b => decide (b.size = 0)
      | none => true)
    if invalid = [] then .ok acc
    else .error (.invalidLevels (invalid.map (fun e => e.1)))
  | p :: rest, i, acc =>
    match createLevelBlob env canvas i p quality with
    | .error e => .error e
    | .ok b =>
      if levelSize (setLevel acc (i + 1) b) (i + 1) = 0 then
        .error (.levelFailed (i + 1)
          ("Level level" ++ toString (i + 1) ++ " validation failed after creation"))
      else cpliGo env canvas quality rest (i + 1) (setLevel acc (i + 1) b)

def DEFAULT_PIXELATION_LEVELS : List Nat := [64, 32, 16, 0]

/-- Embeds createPixelationLevelsInternal (src/unnamed/part_002, lines
286-404). -/
def createPixelationLevelsInternal (env : Env) (canvas : Surface) (quality : ℚ)
    (pixelSizes : List Nat) : Except PErr Levels :=
  cpliGo env canvas quality pixelSizes 0 []

def maxRetries : Nat := 5

/-- One try body of createPixelationLevels: the internal generation followed
by the double-check validation (a pass that returns incomplete levels is
itself a failure). -/
def attemptOnce (envAt : Nat → Env) (canvas : Surface) (pixelSizes : List Nat)
    (idx : Nat) (quality : ℚ) : Except PErr Levels :=
  match createPixelationLevelsInternal (envAt idx) canvas quality pixelSizes with
  | .ok ls => if validatePixelationLevels ls then .ok ls else .error .finalCheck
  | .error e => .error e

/-- Embeds createPixelationLevels (src/unnamed/part_002, lines 228-281),
returning the result together with the log of internal attempts as
(attempt index, quality) pairs; regular attempts carry their retryCount as
index, the last-resort minimal-quality attempt carries index maxRetries + 1
and always uses the default block sizes, exactly as the source call does. -/
def createPixelationLevelsAux (envAt : Nat → Env) (canvas : Surface)
    (pixelSizes : List Nat) (quality : ℚ) (retryCount : Nat) :
    Except PErr Levels × List (Nat × ℚ) :=
  match attemptOnce envAt canvas pixelSizes retryCount quality with
  | .ok ls => (.ok ls, [(retryCount, quality)])
  | .error e =>
    if h : retryCount < maxRetries then
      ((createPixelationLevelsAux envAt canvas pixelSizes
          (if 2 ≤ retryCount then max ((7:ℚ)/10) (quality - 1/10) else quality)
          (retryCount + 1)).1,
        (retryCount, quality) ::
          (createPixelationLevelsAux envAt canvas pixelSizes
            (if 2 ≤ retryCount then max ((7:ℚ)/10) (quality - 1/10) else quality)
            (retryCount + 1)).2)
    else
      if (3:ℚ)/5 < quality then
        match createPixelationLevelsInternal (envAt (maxRetries + 1)) canvas ((3:ℚ)/5)
            DEFAULT_PIXELATION_LEVELS with
        | .ok ls => (.ok ls, [(retryCount, quality), (maxRetries + 1, (3:ℚ)/5)])
        | .error _ =>
          (.error (.retriesExhausted maxRetries e),
            [(retryCount, quality), (maxRetries + 1, (3:ℚ)/5)])
      else (.error (.retriesExhausted maxRetries e), [(retryCount, quality)])
termination_by maxRetries - retryCount
decreasing_by omega

/-- Entry point of the retry controller: retryCount starts at 0. -/
def createPixelationLevels (envAt : Nat → Env) (canvas : Surface) (quality : ℚ)
    (pixelSizes : List Nat) : Except PErr Levels × List (Nat × ℚ) :=
  createPixelationLevelsAux envAt canvas pixelSizes quality 0

theorem createLevelBlob_ok_size (env : Env) (canvas : Surface) (i p : Nat)
    (q : ℚ) (b : Blob) (h : createLevelBlob env canvas i p q = .ok b) :
    0 < b.size := by
  unfold createLevelBlob at h
  split at h
  · exact absurd h (by simp)
  · split at h
    · split at h
      · exact absurd h (by simp)
      · exact absurd h (by simp)
      · split at h
        · cases h
          assumption
        · exact absurd h (by simp)
    · split at h
      · exact absurd h (by simp)
      · split at h
        · cases h
          assumption
        · exact absurd h (by simp)

theorem createLevelBlob_error_shape (env : Env) (canvas : Surface) (i p : Nat)
    (q : ℚ) (e : PErr) (h : createLevelBlob env canvas i p q = .error e) :
    ∃ msg, e = .levelFailed (i + 1) msg := by
  unfold createLevelBlob at h
  split at h
  · cases h
    exact ⟨_, rfl⟩
  · split at h
    · split at h
      · cases h
        exact ⟨_, rfl⟩
      · cases h
        exact ⟨_, rfl⟩
      · split at h
        · exact absurd h (by simp)
        · cases h
          exact ⟨_, rfl⟩
    · split at h
      · cases h
        exact ⟨_, rfl⟩
      · split at h
        · exact absurd h (by simp)
        · cases h
          exact ⟨_, rfl⟩

theorem find?_map_set (ls : Levels) (k : Nat) (b : Blob)
    (h : (ls.find? (fun e => e.1 = k)).isSome) :
    ((ls.map (fun e => if e.1 = k then (k, some b) else e)).find?
      (fun e => e.1 = k)) = some (k, some b) := by
  induction ls with
  | nil => simp at h
  | cons hd tl ih =>
    by_cases hk : hd.1 = k
    · simp [List.find?, hk]
    · rw [List.find?_cons_of_neg _ (by simpa using hk)] at h
      simp only [List.map_cons]
      rw [if_neg hk, List.find?_cons_of_neg _ (by simpa using hk)]
      exact ih h

theorem find?_map_set_ne (ls : Levels) (k k' : Nat) (b : Blob) (hne : k' ≠ k) :
    ((ls.map (fun e => if e.1 = k then (k, some b) else e)).find?
      (fun e => e.1 = k')) = ls.find? (fun e => e.1 = k') := by
  induction ls with
  | nil => simp
  | cons hd tl ih =>
    by_cases hk : hd.1 = k
    · simp only [List.map_cons, if_pos hk]
      rw [List.find?_cons_of_neg _ (by simpa using (Ne.symm hne)),
        List.find?_cons_of_neg _ (by simp [hk]; exact fun hh => hne (by omega))]
      exact ih
    · simp only [List.map_cons, if_neg hk]
      by_cases hk' : hd.1 = k'
      · rw [List.find?_cons_of_pos _ (by simpa using hk'),
          List.find?_cons_of_pos _ (by simpa using hk')]
      · rw [List.find?_cons_of_neg _ (by simpa using hk'),
          List.find?_cons_of_neg _ (by simpa using hk')]
        exact ih

theorem levelGet_setLevel_self (ls : Levels) (k : Nat) (b : Blob) :
    levelGet (setLevel ls k b) k = some b := by
  unfold setLevel
  rcases hf : ls.find? (fun e => e.1 = k) with _ | e <;> rw [hf]
  · unfold levelGet
    rw [List.find?_append, hf]
    simp [List.find?]
  · unfold levelGet
    rw [find?_map_set ls k b (by rw [hf]; rfl)]

theorem levelGet_setLevel_ne (ls : Levels) (k k' : Nat) (b : Blob) (hne : k' ≠ k) :
    levelGet (setLevel ls k b) k' = levelGet ls k' := by
  unfold setLevel
  rcases hf : ls.find? (fun e => e.1 = k) with _ | e <;> rw [hf]
  · unfold levelGet
    rw [List.find?_append]
    rcases hf' : ls.find? (fun e => e.1 = k') with _ | e'
    · simp [List.find?, Ne.symm hne]
    · simp [hf']
  · unfold levelGet
    rw [find?_map_set_ne ls k k' b hne]

theorem levelSize_setLevel_self (ls : Levels) (k : Nat) (b : Blob) :
    levelSize (setLevel ls k b) k = b.size := by
  unfold levelSize
  rw [levelGet_setLevel_self]

theorem cpliGo_cons_err (env : Env) (canvas : Surface) (quality : ℚ)
    (p : Nat) (rest : List Nat) (i : Nat) (acc : Levels) (e : PErr)
    (hb : createLevelBlob env canvas i p quality = .error e) :
    cpliGo env canvas quality (p :: rest) i acc = .error e := by
  rw [cpliGo, hb]

theorem cpliGo_cons_ok (env : Env) (canvas : Surface) (quality : ℚ)
    (p : Nat) (rest : List Nat) (i : Nat) (acc : Levels) (b : Blob)
    (hb : createLevelBlob env canvas i p quality = .ok b) :
    cpliGo env canvas quality (p :: rest) i acc =
      cpliGo env canvas quality rest (i + 1) (setLevel acc (i + 1) b) := by
  have hsz := createLevelBlob_ok_size env canvas i p quality b hb
  rw [cpliGo, hb]
  simp only [levelSize_setLevel_self]
  rw [if_neg (by omega)]

theorem cpliGo_ok_preserved (env : Env) (canvas : Surface) (quality : ℚ) :
    ∀ (sizes : List Nat) (i : Nat) (acc ls : Levels),
      cpliGo env canvas quality sizes i acc = .ok ls →
      ∀ k, k ≤ i → levelGet ls k = levelGet acc k := by
  intro sizes
  induction sizes with
  | nil =>
    intro i acc ls h k _
    rw [cpliGo] at h
    split at h
    · cases h
      rfl
    · exact absurd h (by simp)
  | cons p rest ih =>
    intro i acc ls h k hk
    rcases hb : createLevelBlob env canvas i p quality with e | b
    · rw [cpliGo_cons_err env canvas quality p rest i acc e hb] at h
      exact absurd h (by simp)
    · rw [cpliGo_cons_ok env canvas quality p rest i acc b hb] at h
      have := ih (i + 1) (setLevel acc (i + 1) b) ls h k (by omega)
      rw [this, levelGet_setLevel_ne acc (i + 1) k b (by omega)]

theorem cpliGo_ok_complete (env : Env) (canvas : Surface) (quality : ℚ) :
    ∀ (sizes : List Nat) (i : Nat) (acc ls : Levels),
      cpliGo env canvas quality sizes i acc = .ok ls →
      ∀ j, j < sizes.length → 0 < levelSize ls (i + 1 + j) := by
  intro sizes
  induction sizes with
  | nil =>
    intro i acc ls _ j hj
    simp at hj
  | cons p rest ih =>
    intro i acc ls h j hj
    rcases hb : createLevelBlob env canvas i p quality with e | b
    · rw [cpliGo_cons_err env canvas quality p rest i acc e hb] at h
      exact absurd h (by simp)
    · rw [cpliGo_cons_ok env canvas quality p rest i acc b hb] at h
      rcases j with _ | j
      · have hpres := cpliGo_ok_preserved env canvas quality rest (i + 1)
          (setLevel acc (i + 1) b) ls h (i + 1) (by omega)
        have hself := levelGet_setLevel_self acc (i + 1) b
        have hsz := createLevelBlob_ok_size env canvas i p quality b hb
        unfold levelSize
        rw [show i + 1 + 0 = i + 1 by omega, hpres, hself]
        exact hsz
      · have := ih (i + 1) (setLevel acc (i + 1) b) ls h j
          (by simpa using Nat.lt_of_succ_lt_succ hj)
        rw [show i + 1 + (j + 1) = i + 1 + 1 + j by omega]
        exact this

theorem cpliGo_error_shape (env : Env) (canvas : Surface) (quality : ℚ) :
    ∀ (sizes : List Nat) (i : Nat) (acc : Levels) (e : PErr),
      cpliGo env canvas quality sizes i acc = .error e →
      (∃ k msg, e = .levelFailed k msg ∧ i + 1 ≤ k ∧ k ≤ i + sizes.length) ∨
      (∃ ks, e = .invalidLevels ks ∧ ks ≠ []) := by
  intro sizes
  induction sizes with
  | nil =>
    intro i acc e h
    rw [cpliGo] at h
    split at h
    · exact absurd h (by simp)
    · cases h
      rename_i hinv
      refine Or.inr ⟨_, rfl, ?_⟩
      simp only [ne_eq, List.map_eq_nil_iff]
      exact hinv
  | cons p rest ih =>
    intro i acc e h
    rcases hb : createLevelBlob env canvas i p quality with e0 | b
    · rw [cpliGo_cons_err env canvas quality p rest i acc e0 hb] at h
      obtain rfl : e0 = e := by simpa using h
      obtain ⟨msg, rfl⟩ := createLevelBlob_error_shape env canvas i p quality e0 hb
      exact Or.inl ⟨i + 1, msg, rfl, by omega, by simp⟩
    · rw [cpliGo_cons_ok env canvas quality p rest i acc b hb] at h
      rcases ih (i + 1) (setLevel acc (i + 1) b) e h with ⟨k, msg, rfl, hk1, hk2⟩ | hr
      · exact Or.inl ⟨k, msg, rfl, by omega, by simp only [List.length_cons]; omega⟩
      · exact Or.inr hr

/-- C4: with the configured four-entry block-size list,
createPixelationLevelsInternal returns normally only with all four slots
level1..level4 populated by blobs of non-zero size (it passes the
completeness validator), and every failure is an error naming the level that
failed (or the non-empty list of invalid levels of the final check). -/
theorem c4_level_set_complete (env : Env) (canvas : Surface) (quality : ℚ)
    (pixelSizes : List Nat) (hlen : pixelSizes.length = 4) :
    (∀ ls, createPixelationLevelsInternal env canvas quality pixelSizes = .ok ls →
      validatePixelationLevels ls = true)
    ∧ (∀ e, createPixelationLevelsInternal env canvas quality pixelSizes = .error e →
      (∃ k msg, e = .levelFailed k msg ∧ 1 ≤ k ∧ k ≤ 4) ∨
      (∃ ks, e = .invalidLevels ks ∧ ks ≠ [])) := by
  constructor
  · intro ls h
    have hc := cpliGo_ok_complete env canvas quality pixelSizes 0 [] ls h
    rw [hlen] at hc
    apply (validate_iff_sizes ls).mpr
    exact ⟨by simpa using hc 0 (by omega), by simpa using hc 1 (by omega),
      by simpa using hc 2 (by omega), by simpa using hc 3 (by omega)⟩
  · intro e h
    rcases cpliGo_error_shape env canvas quality pixelSizes 0 [] e h with
      ⟨k, msg, rfl, hk1, hk2⟩ | hr
    · rw [hlen] at hk2
      exact Or.inl ⟨k, msg, rfl, by omega, by omega⟩
    · exact Or.inr hr

/-- Environment whose oracles all succeed with a 7-byte blob. -/
def wEnvOkC4 : Env :=
  { ctxOk := fun _ => true, pctxOk := fun _ => true, getDataOk := fun _ => true,
    putDataOk := fun _ => true, encode := fun _ _ _ => .done (some ⟨7, 0⟩) }

/-- Small 8 x 8 working surface. -/
def wCanvas8 : Surface := ⟨8, 8, fun _ => 3⟩

/-- Witness for c4_level_set_complete: with the default block sizes and an
all-succeeding environment, the generated level set passes the validator. -/
theorem c4_level_set_complete_witness :
    DEFAULT_PIXELATION_LEVELS.length = 4 ∧
    validatePixelationLevels
      [(1, some ⟨7, 0⟩), (2, some ⟨7, 0⟩), (3, some ⟨7, 0⟩), (4, some ⟨7, 0⟩)] = true :=
  ⟨rfl, (c4_level_set_complete wEnvOkC4 wCanvas8 (9/10) DEFAULT_PIXELATION_LEVELS rfl).1
    [(1, some ⟨7, 0⟩), (2, some ⟨7, 0⟩), (3, some ⟨7, 0⟩), (4, some ⟨7, 0⟩)] rfl⟩

/-- Quality passed to the regular attempt with the given retryCount: the retry
body sets retryQuality = retryCount >= 2 ? max(0.7, quality - 0.1) : quality
before recursing. -/
def qualSchedule (q : ℚ) : Nat → ℚ
  | 0 => q
  | n + 1 => if 2 ≤ n then max ((7:ℚ)/10) (qualSchedule q n - 1/10) else qualSchedule q n

theorem qualSchedule_le_two (q : ℚ) : ∀ n, n ≤ 2 → qualSchedule q n = q := by
  intro n hn
  interval_cases n <;> simp [qualSchedule]

theorem qualSchedule_succ_ge2 (q : ℚ) (n : Nat) (h : 2 ≤ n) :
    qualSchedule q (n + 1) = max ((7:ℚ)/10) (qualSchedule q n - 1/10) := by
  rw [qualSchedule, if_pos h]

theorem qualSchedule_floor (q : ℚ) : ∀ n, 3 ≤ n → (7:ℚ)/10 ≤ qualSchedule q n := by
  intro n hn
  obtain ⟨m, rfl⟩ : ∃ m, n = m + 1 := ⟨n - 1, by omega⟩
  rw [qualSchedule_succ_ge2 q m (by omega)]
  exact le_max_left _ _

theorem qualSchedule_lt (q : ℚ) (hq : (7:ℚ)/10 < q) :
    ∀ n, 3 ≤ n → qualSchedule q n < q := by
  intro n
  induction n with
  | zero => omega
  | succ m ih =>
    intro h3
    rcases Nat.lt_or_ge m 3 with hm | hm
    · have hm2 : m = 2 := by omega
      subst hm2
      rw [qualSchedule_succ_ge2 q 2 (by omega), qualSchedule_le_two q 2 (by omega)]
      exact max_lt hq (by linarith)
    · rw [qualSchedule_succ_ge2 q m (by omega)]
      exact max_lt hq (by linarith [ih (by omega)])

theorem cplAux_ok (envAt : Nat → Env) (canvas : Surface) (ps : List Nat)
    (rc : Nat) (q : ℚ) (ls : Levels)
    (h : attemptOnce envAt canvas ps rc q = .ok ls) :
    createPixelationLevelsAux envAt canvas ps q rc = (.ok ls, [(rc, q)]) := by
  rw [createPixelationLevelsAux]
  simp only [h]

theorem cplAux_retry (envAt : Nat → Env) (canvas : Surface) (ps : List Nat)
    (rc : Nat) (q : ℚ) (e : PErr)
    (h : attemptOnce envAt canvas ps rc q = .error e) (hlt : rc < maxRetries) :
    createPixelationLevelsAux envAt canvas ps q rc =
      ((createPixelationLevelsAux envAt canvas ps
          (if 2 ≤ rc then max ((7:ℚ)/10) (q - 1/10) else q) (rc + 1)).1,
        (rc, q) :: (createPixelationLevelsAux envAt canvas ps
          (if 2 ≤ rc then max ((7:ℚ)/10) (q - 1/10) else q) (rc + 1)).2) := by
  rw [createPixelationLevelsAux]
  simp only [h]
  rw [dif_pos hlt]

theorem cplAux_final_ok (envAt : Nat → Env) (canvas : Surface) (ps : List Nat)
    (rc : Nat) (q : ℚ) (e : PErr) (ls : Levels)
    (h : attemptOnce envAt canvas ps rc q = .error e) (hge : ¬rc < maxRetries)
    (hq : (3:ℚ)/5 < q)
    (hfin : createPixelationLevelsInternal (envAt (maxRetries + 1)) canvas ((3:ℚ)/5)
      DEFAULT_PIXELATION_LEVELS = .ok ls) :
    createPixelationLevelsAux envAt canvas ps q rc =
      (.ok ls, [(rc, q), (maxRetries + 1, (3:ℚ)/5)]) := by
  rw [createPixelationLevelsAux]
  simp only [h]
  rw [dif_neg hge, if_pos hq]
  simp only [hfin]

theorem cplAux_final_err (envAt : Nat → Env) (canvas : Surface) (ps : List Nat)
    (rc : Nat) (q : ℚ) (e e2 : PErr)
    (h : attemptOnce envAt canvas ps rc q = .error e) (hge : ¬rc < maxRetries)
    (hq : (3:ℚ)/5 < q)
    (hfin : createPixelationLevelsInternal (envAt (maxRetries + 1)) canvas ((3:ℚ)/5)
      DEFAULT_PIXELATION_LEVELS = .error e2) :
    createPixelationLevelsAux envAt canvas ps q rc =
      (.error (.retriesExhausted maxRetries e),
        [(rc, q), (maxRetries + 1, (3:ℚ)/5)]) := by
  rw [createPixelationLevelsAux]
  simp only [h]
  rw [dif_neg hge, if_pos hq]
  simp only [hfin]

theorem cplAux_noFinal (envAt : Nat → Env) (canvas : Surface) (ps : List Nat)
    (rc : Nat) (q : ℚ) (e : PErr)
    (h : attemptOnce envAt canvas ps rc q = .error e) (hge : ¬rc < maxRetries)
    (hq : ¬(3:ℚ)/5 < q) :
    createPixelationLevelsAux envAt canvas ps q rc =
      (.error (.retriesExhausted maxRetries e), [(rc, q)]) := by
  rw [createPixelationLevelsAux]
  simp only [h]
  rw [dif_neg hge, if_neg hq]

theorem cplAux_bound (envAt : Nat → Env) (canvas : Surface) (ps : List Nat) :
    ∀ (k rc : Nat), rc + k = maxRetries → ∀ (q : ℚ), (3 ≤ rc → (7:ℚ)/10 ≤ q) →
      (createPixelationLevelsAux envAt canvas ps q rc).2.length ≤ k + 2 ∧
      ((createPixelationLevelsAux envAt canvas ps q rc).2.filter
          (fun en => decide (en.1 ≤ maxRetries))).length ≤ k + 1 ∧
      ((createPixelationLevelsAux envAt canvas ps q rc).2.filter
          (fun en => decide (en.1 = maxRetries + 1))).length ≤ 1 ∧
      (∃ t, (createPixelationLevelsAux envAt canvas ps q rc).2 = (rc, q) :: t) ∧
      (∀ e, (createPixelationLevelsAux envAt canvas ps q rc).1 = .error e →
        ∃ cause, e = .retriesExhausted maxRetries cause ∧
          (createPixelationLevelsAux envAt canvas ps q rc).2.getLast?
            = some (maxRetries + 1, (3:ℚ)/5)) := by
  intro k
  induction k with
  | zero =>
    intro rc hrc q hq
    have hrc5 : rc = maxRetries := by omega
    subst hrc5
    have hq7 : (7:ℚ)/10 ≤ q := hq (by norm_num [maxRetries])
    have hq35 : (3:ℚ)/5 < q := by linarith [show (3:ℚ)/5 < 7/10 by norm_num]
    rcases ha : attemptOnce envAt canvas ps maxRetries q with e | ls
    · have hge : ¬maxRetries < maxRetries := by omega
      rcases hfin : createPixelationLevelsInternal (envAt (maxRetries + 1)) canvas
          ((3:ℚ)/5) DEFAULT_PIXELATION_LEVELS with e2 | ls2
      · rw [cplAux_final_err envAt canvas ps maxRetries q e e2 ha hge hq35 hfin]
        refine ⟨by simp, ?_, ?_, ⟨_, rfl⟩, ?_⟩
        · simp [maxRetries]
        · simp [maxRetries]
        · intro e3 he3
          simp only [Except.error.injEq] at he3
          exact ⟨e, he3.symm, by simp [List.getLast?]⟩
      · rw [cplAux_final_ok envAt canvas ps maxRetries q e ls2 ha hge hq35 hfin]
        refine ⟨by simp, ?_, ?_, ⟨_, rfl⟩, ?_⟩
        · simp [maxRetries]
        · simp [maxRetries]
        · intro e3 he3
          exact absurd he3 (by simp)
    · rw [cplAux_ok envAt canvas ps maxRetries q ls ha]
      refine ⟨by simp, ?_, ?_, ⟨_, rfl⟩, ?_⟩
      · simp [maxRetries]
      · simp [maxRetries]
      · intro e3 he3
        exact absurd he3 (by simp)
  | succ k ih =>
    intro rc hrc q hq
    have hlt : rc < maxRetries := by omega
    rcases ha : attemptOnce envAt canvas ps rc q with e | ls
    · rw [cplAux_retry envAt canvas ps rc q e ha hlt]
      have hq2 : 3 ≤ rc + 1 →
          (7:ℚ)/10 ≤ (if 2 ≤ rc then max ((7:ℚ)/10) (q - 1/10) else q) := by
        intro h3
        rw [if_pos (by omega)]
        exact le_max_left _ _
      obtain ⟨hl, hf1, hf2, ⟨t, ht⟩, herr⟩ := ih (rc + 1) (by omega) _ hq2
      refine ⟨?_, ?_, ?_, ⟨_, rfl⟩, ?_⟩
      · simp only [List.length_cons]
        omega
      · simp only [List.filter_cons, decide_eq_true_eq, if_pos (by omega : rc ≤ maxRetries)]
        simp only [List.length_cons]
        omega
      · simp only [List.filter_cons]
        rw [if_neg (by simp; omega)]
        exact hf2
      · intro e3 he3
        obtain ⟨cause, hc, hlast⟩ := herr e3 he3
        refine ⟨cause, hc, ?_⟩
        rw [ht] at hlast ⊢
        rw [List.getLast?_cons_cons]
        exact hlast
    · rw [cplAux_ok envAt canvas ps rc q ls ha]
      refine ⟨by simp only [List.length_cons, List.length_nil]; omega, ?_, ?_, ⟨_, rfl⟩, ?_⟩
      · simp only [List.filter_cons, List.filter_nil, decide_eq_true_eq,
          if_pos (by omega : rc ≤ maxRetries)]
        simp
      · simp only [List.filter_cons, List.filter_nil]
        rw [if_neg (by simp; omega)]
        simp
      · intro e3 he3
        exact absurd he3 (by simp)

theorem cplAux_entries (envAt : Nat → Env) (canvas : Surface) (ps : List Nat)
    (q0 : ℚ) :
    ∀ (k rc : Nat), rc + k = maxRetries → ∀ i qi,
      (i, qi) ∈ (createPixelationLevelsAux envAt canvas ps
        (qualSchedule q0 rc) rc).2 →
      (i = maxRetries + 1 ∧ qi = (3:ℚ)/5) ∨
      (rc ≤ i ∧ i ≤ maxRetries ∧ qi = qualSchedule q0 i) := by
  intro k
  induction k with
  | zero =>
    intro rc hrc i qi hmem
    have hrc5 : rc = maxRetries := by omega
    subst hrc5
    have hq35 : (3:ℚ)/5 < qualSchedule q0 maxRetries := by
      have := qualSchedule_floor q0 maxRetries (by norm_num [maxRetries])
      linarith [show (3:ℚ)/5 < 7/10 by norm_num]
    rcases ha : attemptOnce envAt canvas ps maxRetries (qualSchedule q0 maxRetries)
        with e | ls
    · have hge : ¬maxRetries < maxRetries := by omega
      rcases hfin : createPixelationLevelsInternal (envAt (maxRetries + 1)) canvas
          ((3:ℚ)/5) DEFAULT_PIXELATION_LEVELS with e2 | ls2
      · rw [cplAux_final_err envAt canvas ps maxRetries _ e e2 ha hge hq35 hfin] at hmem
        simp only [List.mem_cons, List.mem_singleton, List.not_mem_nil, or_false,
          Prod.mk.injEq] at hmem
        rcases hmem with ⟨rfl, rfl⟩ | ⟨rfl, rfl⟩
        · exact Or.inr ⟨le_refl _, le_refl _, rfl⟩
        · exact Or.inl ⟨rfl, rfl⟩
      · rw [cplAux_final_ok envAt canvas ps maxRetries _ e ls2 ha hge hq35 hfin] at hmem
        simp only [List.mem_cons, List.mem_singleton, List.not_mem_nil, or_false,
          Prod.mk.injEq] at hmem
        rcases hmem with ⟨rfl, rfl⟩ | ⟨rfl, rfl⟩
        · exact Or.inr ⟨le_refl _, le_refl _, rfl⟩
        · exact Or.inl ⟨rfl, rfl⟩
    · rw [cplAux_ok envAt canvas ps maxRetries _ ls ha] at hmem
      simp only [List.mem_singleton, Prod.mk.injEq] at hmem
      obtain ⟨rfl, rfl⟩ := hmem
      exact Or.inr ⟨le_refl _, le_refl _, rfl⟩
  | succ k ih =>
    intro rc hrc i qi hmem
    have hlt : rc < maxRetries := by omega
    rcases ha : attemptOnce envAt canvas ps rc (qualSchedule q0 rc) with e | ls
    · rw [cplAux_retry envAt canvas ps rc _ e ha hlt] at hmem
      have hnext : (if 2 ≤ rc then max ((7:ℚ)/10) (qualSchedule q0 rc - 1/10)
          else qualSchedule q0 rc) = qualSchedule q0 (rc + 1) := by
        rw [qualSchedule]
      rw [hnext] at hmem
      simp only [List.mem_cons, Prod.mk.injEq] at hmem
      rcases hmem with ⟨rfl, rfl⟩ | hmem
      · exact Or.inr ⟨le_refl _, by omega, rfl⟩
      · rcases ih (rc + 1) (by omega) i qi hmem with hl | ⟨h1, h2, h3⟩
        · exact Or.inl hl
        · exact Or.inr ⟨by omega, h2, h3⟩
    · rw [cplAux_ok envAt canvas ps rc _ ls ha] at hmem
      simp only [List.mem_singleton, Prod.mk.injEq] at hmem
      obtain ⟨rfl, rfl⟩ := hmem
      exact Or.inr ⟨le_refl _, by omega, rfl⟩

/-- C2 (amended): the retry controller makes at most 6 regular attempts
(1 initial + 5 retries, maxRetries = 5) and at most one last-resort attempt,
7 internal calls in total; a terminal error is always retriesExhausted naming
the 5 exhausted retries and the last underlying cause, and is raised only
after the last-resort attempt at quality 0.6 also ran and failed; 4 injected
failures followed by a success still yield exactly 5 attempts and success. -/
theorem c2_retry_ceiling (envAt : Nat → Env) (canvas : Surface) (ps : List Nat)
    (q : ℚ) :
    (createPixelationLevels envAt canvas q ps).2.length ≤ 7 ∧
    ((createPixelationLevels envAt canvas q ps).2.filter
        (fun en => decide (en.1 ≤ maxRetries))).length ≤ 6 ∧
    ((createPixelationLevels envAt canvas q ps).2.filter
        (fun en => decide (en.1 = maxRetries + 1))).length ≤ 1 ∧
    (∀ e, (createPixelationLevels envAt canvas q ps).1 = .error e →
      ∃ cause, e = .retriesExhausted maxRetries cause ∧
        (createPixelationLevels envAt canvas q ps).2.getLast?
          = some (maxRetries + 1, (3:ℚ)/5)) ∧
    ((∀ i, i ≤ 3 → ∀ q2, ∃ e, attemptOnce envAt canvas ps i q2 = .error e) →
      (∀ q2, ∃ ls, attemptOnce envAt canvas ps 4 q2 = .ok ls) →
      (createPixelationLevels envAt canvas q ps).2.length = 5 ∧
      ∃ ls, (createPixelationLevels envAt canvas q ps).1 = .ok ls) := by
  obtain ⟨hl, hf1, hf2, _, herr⟩ :=
    cplAux_bound envAt canvas ps maxRetries 0 (by omega) q
      (fun h => absurd h (by decide))
  refine ⟨by simpa [createPixelationLevels] using hl,
    by simpa [createPixelationLevels] using hf1,
    by simpa [createPixelationLevels] using hf2,
    by simpa [createPixelationLevels] using herr, ?_⟩
  intro hfail hsucc
  obtain ⟨e0, h0⟩ := hfail 0 (by omega) q
  obtain ⟨e1, h1⟩ := hfail 1 (by omega) q
  obtain ⟨e2, h2⟩ := hfail 2 (by omega) q
  obtain ⟨e3, h3⟩ := hfail 3 (by omega) (max ((7:ℚ)/10) (q - 1/10))
  obtain ⟨ls, h4⟩ := hsucc (max ((7:ℚ)/10) (max ((7:ℚ)/10) (q - 1/10) - 1/10))
  have s4 := cplAux_ok envAt canvas ps 4
    (max ((7:ℚ)/10) (max ((7:ℚ)/10) (q - 1/10) - 1/10)) ls h4
  have s3 := cplAux_retry envAt canvas ps 3 (max ((7:ℚ)/10) (q - 1/10)) e3 h3
    (by norm_num [maxRetries])
  rw [if_pos (by omega), s4] at s3
  have s2 := cplAux_retry envAt canvas ps 2 q e2 h2 (by norm_num [maxRetries])
  rw [if_pos (by omega), s3] at s2
  have s1 := cplAux_retry envAt canvas ps 1 q e1 h1 (by norm_num [maxRetries])
  rw [if_neg (by omega), s2] at s1
  have s0 := cplAux_retry envAt canvas ps 0 q e0 h0 (by norm_num [maxRetries])
  rw [if_neg (by omega), s1] at s0
  unfold createPixelationLevels
  rw [s0]
  exact ⟨rfl, ls, rfl⟩

/-- Fully failing environment: every context acquisition fails. -/
def failEnv : Env :=
  { ctxOk := fun _ => false, pctxOk := fun _ => false, getDataOk := fun _ => false,
    putDataOk := fun _ => false, encode := fun _ _ _ => .done none }

/-- Environment schedule failing the first five attempts (indices 0..4). -/
def wEnvAtC2 : Nat → Env := fun idx => if idx ≤ 4 then failEnv else wEnvOkC4

/-- Environment schedule failing the first four attempts (indices 0..3). -/
def wEnvAtC2w : Nat → Env := fun idx => if idx ≤ 3 then failEnv else wEnvOkC4

/-- The level set produced by the all-succeeding environment wEnvOkC4. -/
def wLevels7 : Levels :=
  [(1, some ⟨7, 0⟩), (2, some ⟨7, 0⟩), (3, some ⟨7, 0⟩), (4, some ⟨7, 0⟩)]

theorem wEnvAtC2_run_eq :
    createPixelationLevels wEnvAtC2 wCanvas8 ((9:ℚ)/10) DEFAULT_PIXELATION_LEVELS =
      (.ok wLevels7,
        [(0, (9:ℚ)/10), (1, (9:ℚ)/10), (2, (9:ℚ)/10),
         (3, max ((7:ℚ)/10) ((9:ℚ)/10 - 1/10)),
         (4, max ((7:ℚ)/10) (max ((7:ℚ)/10) ((9:ℚ)/10 - 1/10) - 1/10)),
         (5, max ((7:ℚ)/10)
           (max ((7:ℚ)/10) (max ((7:ℚ)/10) ((9:ℚ)/10 - 1/10) - 1/10) - 1/10))]) := by
  have h0 : attemptOnce wEnvAtC2 wCanvas8 DEFAULT_PIXELATION_LEVELS 0 ((9:ℚ)/10)
      = .error (.levelFailed 1 "Could not get canvas context") := rfl
  have h1 : attemptOnce wEnvAtC2 wCanvas8 DEFAULT_PIXELATION_LEVELS 1 ((9:ℚ)/10)
      = .error (.levelFailed 1 "Could not get canvas context") := rfl
  have h2 : attemptOnce wEnvAtC2 wCanvas8 DEFAULT_PIXELATION_LEVELS 2 ((9:ℚ)/10)
      = .error (.levelFailed 1 "Could not get canvas context") := rfl
  have h3 : attemptOnce wEnvAtC2 wCanvas8 DEFAULT_PIXELATION_LEVELS 3
      (max ((7:ℚ)/10) ((9:ℚ)/10 - 1/10))
      = .error (.levelFailed 1 "Could not get canvas context") := rfl
  have h4 : attemptOnce wEnvAtC2 wCanvas8 DEFAULT_PIXELATION_LEVELS 4
      (max ((7:ℚ)/10) (max ((7:ℚ)/10) ((9:ℚ)/10 - 1/10) - 1/10))
      = .error (.levelFailed 1 "Could not get canvas context") := rfl
  have h5 : attemptOnce wEnvAtC2 wCanvas8 DEFAULT_PIXELATION_LEVELS 5
      (max ((7:ℚ)/10)
        (max ((7:ℚ)/10) (max ((7:ℚ)/10) ((9:ℚ)/10 - 1/10) - 1/10) - 1/10))
      = .ok wLevels7 := rfl
  have s5 := cplAux_ok wEnvAtC2 wCanvas8 DEFAULT_PIXELATION_LEVELS 5 _ wLevels7 h5
  have s4 := cplAux_retry wEnvAtC2 wCanvas8 DEFAULT_PIXELATION_LEVELS 4 _ _ h4
    (by norm_num [maxRetries])
  rw [if_pos (by omega), s5] at s4
  have s3 := cplAux_retry wEnvAtC2 wCanvas8 DEFAULT_PIXELATION_LEVELS 3 _ _ h3
    (by norm_num [maxRetries])
  rw [if_pos (by omega), s4] at s3
  have s2 := cplAux_retry wEnvAtC2 wCanvas8 DEFAULT_PIXELATION_LEVELS 2 _ _ h2
    (by norm_num [maxRetries])
  rw [if_pos (by omega), s3] at s2
  have s1 := cplAux_retry wEnvAtC2 wCanvas8 DEFAULT_PIXELATION_LEVELS 1 _ _ h1
    (by norm_num [maxRetries])
  rw [if_neg (by omega), s2] at s1
  have s0 := cplAux_retry wEnvAtC2 wCanvas8 DEFAULT_PIXELATION_LEVELS 0 _ _ h0
    (by norm_num [maxRetries])
  rw [if_neg (by omega), s1] at s0
  unfold createPixelationLevels
  rw [s0]

/-- Counterexample to C2 as stated: 5 consecutive injected transient failures
followed by a success yield 6 regular attempts and a successful result — more
than the claimed ceiling of 5 attempts total, and with no last-resort
minimum-quality attempt (no attempt carries the final index 6). -/
theorem c2_retry_ceiling_cex :
    (createPixelationLevels wEnvAtC2 wCanvas8 ((9:ℚ)/10)
        DEFAULT_PIXELATION_LEVELS).2.length = 6 ∧
    (createPixelationLevels wEnvAtC2 wCanvas8 ((9:ℚ)/10)
        DEFAULT_PIXELATION_LEVELS).1 = .ok wLevels7 ∧
    ((createPixelationLevels wEnvAtC2 wCanvas8 ((9:ℚ)/10)
        DEFAULT_PIXELATION_LEVELS).2.filter
      (fun en => decide (en.1 = maxRetries + 1))).length = 0 := by
  rw [wEnvAtC2_run_eq]
  refine ⟨rfl, rfl, ?_⟩
  simp [maxRetries]

/-- Witness for c2_retry_ceiling: with failures injected at attempts 0..3 and
success at attempt 4, the run makes exactly 5 attempts and succeeds. -/
theorem c2_retry_ceiling_witness :
    (createPixelationLevels wEnvAtC2w wCanvas8 ((9:ℚ)/10)
        DEFAULT_PIXELATION_LEVELS).2.length = 5 ∧
    ∃ ls, (createPixelationLevels wEnvAtC2w wCanvas8 ((9:ℚ)/10)
        DEFAULT_PIXELATION_LEVELS).1 = .ok ls :=
  (c2_retry_ceiling wEnvAtC2w wCanvas8 DEFAULT_PIXELATION_LEVELS ((9:ℚ)/10)).2.2.2.2
    (fun i hi q2 => by interval_cases i <;> exact ⟨_, rfl⟩)
    (fun q2 => ⟨wLevels7, rfl⟩)

/-- C3 (amended): attempts 1-3 (indices 0-2) run at the quality given by the
caller; from the 4th attempt onward (index 3 to 5) the quality follows
max(0.7, previous - 0.1), is at least 0.7, and is strictly below the caller
quality whenever the caller quality exceeds 0.7; the separate last-resort
attempt (index 6) runs at exactly 0.6; when the caller quality is at least
0.6 no attempt ever runs below 0.6. -/
theorem c3_quality_schedule (envAt : Nat → Env) (canvas : Surface)
    (ps : List Nat) (q : ℚ) :
    (∀ i qi, (i, qi) ∈ (createPixelationLevels envAt canvas q ps).2 → i ≤ 2 →
      qi = q) ∧
    (∀ i qi, (i, qi) ∈ (createPixelationLevels envAt canvas q ps).2 → 3 ≤ i →
      i ≤ maxRetries →
      qi = qualSchedule q i ∧ (7:ℚ)/10 ≤ qi ∧ ((7:ℚ)/10 < q → qi < q)) ∧
    (∀ n, 2 ≤ n → qualSchedule q (n + 1) = max ((7:ℚ)/10) (qualSchedule q n - 1/10)) ∧
    (∀ qi, (maxRetries + 1, qi) ∈ (createPixelationLevels envAt canvas q ps).2 →
      qi = (3:ℚ)/5) ∧
    ((3:ℚ)/5 ≤ q → ∀ i qi, (i, qi) ∈ (createPixelationLevels envAt canvas q ps).2 →
      (3:ℚ)/5 ≤ qi) := by
  have hent := cplAux_entries envAt canvas ps q maxRetries 0 (by omega)
  have hq0 : qualSchedule q 0 = q := rfl
  rw [hq0] at hent
  have hent2 : ∀ i qi, (i, qi) ∈ (createPixelationLevels envAt canvas q ps).2 →
      (i = maxRetries + 1 ∧ qi = (3:ℚ)/5) ∨
      (i ≤ maxRetries ∧ qi = qualSchedule q i) := by
    intro i qi hm
    rcases hent i qi hm with hl | ⟨_, h2, h3⟩
    · exact Or.inl hl
    · exact Or.inr ⟨h2, h3⟩
  refine ⟨?_, ?_, ?_, ?_, ?_⟩
  · intro i qi hm hi
    rcases hent2 i qi hm with ⟨hi6, _⟩ | ⟨_, hqi⟩
    · simp only [maxRetries] at hi6
      omega
    · rw [hqi]
      exact qualSchedule_le_two q i hi
  · intro i qi hm h3 h5
    rcases hent2 i qi hm with ⟨hi6, _⟩ | ⟨_, hqi⟩
    · simp only [maxRetries] at h5 hi6
      omega
    · subst hqi
      exact ⟨rfl, qualSchedule_floor q i h3, fun hq7 => qualSchedule_lt q hq7 i h3⟩
  · intro n hn
    exact qualSchedule_succ_ge2 q n hn
  · intro qi hm
    rcases hent2 _ qi hm with ⟨_, hqi⟩ | ⟨hle, _⟩
    · exact hqi
    · simp only [maxRetries] at hle
      omega
  · intro hq35 i qi hm
    rcases hent2 i qi hm with ⟨_, hqi⟩ | ⟨hle, hqi⟩
    · rw [hqi]
    · subst hqi
      rcases Nat.lt_or_ge i 3 with hi | hi
      · rw [qualSchedule_le_two q i (by omega)]
        exact hq35
      · have := qualSchedule_floor q i hi
        linarith [show (3:ℚ)/5 ≤ 7/10 by norm_num]

theorem wEnvAtC2w_run_eq :
    createPixelationLevels wEnvAtC2w wCanvas8 ((9:ℚ)/10) DEFAULT_PIXELATION_LEVELS =
      (.ok wLevels7,
        [(0, (9:ℚ)/10), (1, (9:ℚ)/10), (2, (9:ℚ)/10),
         (3, max ((7:ℚ)/10) ((9:ℚ)/10 - 1/10)),
         (4, max ((7:ℚ)/10) (max ((7:ℚ)/10) ((9:ℚ)/10 - 1/10) - 1/10))]) := by
  have h0 : attemptOnce wEnvAtC2w wCanvas8 DEFAULT_PIXELATION_LEVELS 0 ((9:ℚ)/10)
      = .error (.levelFailed 1 "Could not get canvas context") := rfl
  have h1 : attemptOnce wEnvAtC2w wCanvas8 DEFAULT_PIXELATION_LEVELS 1 ((9:ℚ)/10)
      = .error (.levelFailed 1 "Could not get canvas context") := rfl
  have h2 : attemptOnce wEnvAtC2w wCanvas8 DEFAULT_PIXELATION_LEVELS 2 ((9:ℚ)/10)
      = .error (.levelFailed 1 "Could not get canvas context") := rfl
  have h3 : attemptOnce wEnvAtC2w wCanvas8 DEFAULT_PIXELATION_LEVELS 3
      (max ((7:ℚ)/10) ((9:ℚ)/10 - 1/10))
      = .error (.levelFailed 1 "Could not get canvas context") := rfl
  have h4 : attemptOnce wEnvAtC2w wCanvas8 DEFAULT_PIXELATION_LEVELS 4
      (max ((7:ℚ)/10) (max ((7:ℚ)/10) ((9:ℚ)/10 - 1/10) - 1/10))
      = .ok wLevels7 := rfl
  have s4 := cplAux_ok wEnvAtC2w wCanvas8 DEFAULT_PIXELATION_LEVELS 4 _ wLevels7 h4
  have s3 := cplAux_retry wEnvAtC2w wCanvas8 DEFAULT_PIXELATION_LEVELS 3 _ _ h3
    (by norm_num [maxRetries])
  rw [if_pos (by omega), s4] at s3
  have s2 := cplAux_retry wEnvAtC2w wCanvas8 DEFAULT_PIXELATION_LEVELS 2 _ _ h2
    (by norm_num [maxRetries])
  rw [if_pos (by omega), s3] at s2
  have s1 := cplAux_retry wEnvAtC2w wCanvas8 DEFAULT_PIXELATION_LEVELS 1 _ _ h1
    (by norm_num [maxRetries])
  rw [if_neg (by omega), s2] at s1
  have s0 := cplAux_retry wEnvAtC2w wCanvas8 DEFAULT_PIXELATION_LEVELS 0 _ _ h0
    (by norm_num [maxRetries])
  rw [if_neg (by omega), s1] at s0
  unfold createPixelationLevels
  rw [s0]

/-- Counterexample to C3 as stated: with the caller quality 0.9 and transient
failures injected in the first attempts, the 3rd attempt (index 2) still runs
at the caller quality 0.9 — the quality is not reduced before the 4th
attempt. -/
theorem c3_quality_schedule_cex :
    (createPixelationLevels wEnvAtC2w wCanvas8 ((9:ℚ)/10)
        DEFAULT_PIXELATION_LEVELS).2.get? 2 = some (2, (9:ℚ)/10) := by
  rw [wEnvAtC2w_run_eq]
  rfl

/-- Witness for c3_quality_schedule: in the same failing run the entry of
attempt index 2 is in the log and the theorem forces its quality to equal the
caller quality 0.9. -/
theorem c3_quality_schedule_witness :
    ((2 : Nat), (9:ℚ)/10) ∈ (createPixelationLevels wEnvAtC2w wCanvas8 ((9:ℚ)/10)
        DEFAULT_PIXELATION_LEVELS).2 ∧ (9:ℚ)/10 = (9:ℚ)/10 :=
  ⟨by rw [wEnvAtC2w_run_eq]; exact List.Mem.tail _ (List.Mem.tail _ (List.Mem.head _)),
    (c3_quality_schedule wEnvAtC2w wCanvas8 DEFAULT_PIXELATION_LEVELS ((9:ℚ)/10)).1
      2 ((9:ℚ)/10)
      (by rw [wEnvAtC2w_run_eq]; exact List.Mem.tail _ (List.Mem.tail _ (List.Mem.head _)))
      (by omega)⟩

/-- Source selection and guard of regeneratePixelationLevels (src/unnamed/
part_002, lines 517-523): sourceBlob = existingLevels.level4 || originalBlob
(a present blob is truthy even when its size is 0), then the emptiness check
that throws the no-source error. -/
def regenCheckSource (originalBlob : Option Blob) (existingLevels : Levels) :
    Except String Blob :=
  match (match levelGet existingLevels 4 with
         | some b => some b
         | none => originalBlob) with
  | none => .error "No original (non-pixelated) source blob available for regeneration. Cannot regenerate from pixelated levels."
  | some sourceBlob =>
    if sourceBlob.size = 0 then
      .error "No original (non-pixelated) source blob available for regeneration. Cannot regenerate from pixelated levels."
    else .ok sourceBlob

/-- Environment for regeneratePixelationLevels: decoding the source blob into
an image raster, the regeneration canvas context, and the per-attempt
generation environments. -/
structure RegenEnv where
  decode : Blob → Option Surface
  ctxOk : Bool
  envAt : Nat → Env

/-- Embeds regeneratePixelationLevels (src/unnamed/part_002, lines 510-563):
select the source, decode it, build a canvas at its native resolution, and
delegate to createPixelationLevels with the default block sizes. -/
def regeneratePixelationLevels (renv : RegenEnv) (originalBlob : Option Blob)
    (existingLevels : Levels) (quality : ℚ) : Except String Levels :=
  match regenCheckSource originalBlob existingLevels with
  | .error m => .error m
  | .ok sourceBlob =>
    match renv.decode sourceBlob with
    | none => .error "Failed to load source image for regeneration"
    | some img =>
      if ¬renv.ctxOk then .error "Could not create canvas context for regeneration"
      else
        match (createPixelationLevels renv.envAt img quality
            DEFAULT_PIXELATION_LEVELS).1 with
        | .error e => .error (render e)
        | .ok newLevels => .ok newLevels

/-- Lookup in the validatedBlobs record of getImages: only stored blobs with
size > 0 are kept. -/
def storedLookup (stored : List (Nat × Blob)) (k : Nat) : Option Blob :=
  match (stored.filter (fun e => 0 < e.2.size)).find? (fun e => e.1 = k) with
  | some e => some e.2
  | none => none

/-- pixelationLevels object assembled by getImages (src/unnamed/part_003,
lines 188-193): validatedBlobs.levelK || null. -/
def getImagesLevels (stored : List (Nat × Blob)) : Levels :=
  [(1, storedLookup stored 1), (2, storedLookup stored 2),
   (3, storedLookup stored 3), (4, storedLookup stored 4)]

/-- hasInvalidBlobs flag of getImages: some stored blob record has size 0. -/
def hasInvalidBlobs (stored : List (Nat × Blob)) : Bool :=
  stored.any (fun e => decide (e.2.size = 0))

/-- Regeneration source chain of getImages (src/unnamed/part_003, line 200):
pixelationLevels.level4 || level3 || level2 || level1. -/
def getImagesSourceBlob (pl : Levels) : Option Blob :=
  match levelGet pl 4 with
  | some b => some b
  | none =>
    match levelGet pl 3 with
    | some b => some b
    | none =>
      match levelGet pl 2 with
      | some b => some b
      | none => levelGet pl 1

/-- The sourceBlob getImages hands to regeneratePixelationLevels (none when no
regeneration is attempted). -/
def getImagesRegenCall (stored : List (Nat × Blob)) : Option Blob :=
  if hasInvalidBlobs stored then getImagesSourceBlob (getImagesLevels stored)
  else none

/-- Regeneration environment whose decode and generation always succeed. -/
def wRegenEnv : RegenEnv :=
  { decode := fun _ => some wCanvas8, ctxOk := true, envAt := fun _ => wEnvOkC4 }

/-- C1 (code evaluated at the failing input): for a stored record whose level4
blob has size 0 while its level3 blob is non-empty, getImages flags the record
invalid, assembles level4 = null, selects the pixelated level-3 blob through
its level4 || level3 || level2 || level1 fallback chain, and the call to
regeneratePixelationLevels accepts that level-3 blob as source and completes
successfully — contradicting the never-use-levels-1-3 source rule the claim
(and the comments in the service and the store) state. -/
theorem c1_regen_source_bug :
    hasInvalidBlobs [(3, (⟨500, 3⟩ : Blob)), (4, ⟨0, 4⟩)] = true ∧
    levelGet (getImagesLevels [(3, (⟨500, 3⟩ : Blob)), (4, ⟨0, 4⟩)]) 4 = none ∧
    getImagesRegenCall [(3, (⟨500, 3⟩ : Blob)), (4, ⟨0, 4⟩)] = some ⟨500, 3⟩ ∧
    regenCheckSource (some ⟨500, 3⟩)
      (getImagesLevels [(3, (⟨500, 3⟩ : Blob)), (4, ⟨0, 4⟩)]) = .ok ⟨500, 3⟩ ∧
    regeneratePixelationLevels wRegenEnv (some ⟨500, 3⟩)
      (getImagesLevels [(3, (⟨500, 3⟩ : Blob)), (4, ⟨0, 4⟩)]) ((9:ℚ)/10)
      = .ok wLevels7 := by
  refine ⟨by decide, by decide, by decide, rfl, ?_⟩
  have hgen : createPixelationLevelsAux (fun _ => wEnvOkC4) wCanvas8
      DEFAULT_PIXELATION_LEVELS ((9:ℚ)/10) 0 = (.ok wLevels7, [(0, (9:ℚ)/10)]) :=
    cplAux_ok (fun _ => wEnvOkC4) wCanvas8 DEFAULT_PIXELATION_LEVELS 0 _ wLevels7 rfl
  unfold regeneratePixelationLevels
  rw [show regenCheckSource (some ⟨500, 3⟩)
      (getImagesLevels [(3, (⟨500, 3⟩ : Blob)), (4, ⟨0, 4⟩)]) = .ok ⟨500, 3⟩ from rfl]
  show (match (createPixelationLevels wRegenEnv.envAt wCanvas8 ((9:ℚ)/10)
      DEFAULT_PIXELATION_LEVELS).1 with
    | .error e => Except.error (render e)
    | .ok newLevels => Except.ok newLevels) = .ok wLevels7
  unfold createPixelationLevels
  show (match (createPixelationLevelsAux (fun _ => wEnvOkC4) wCanvas8
      DEFAULT_PIXELATION_LEVELS ((9:ℚ)/10) 0).1 with
    | .error e => Except.error (render e)
    | .ok newLevels => Except.ok newLevels) = .ok wLevels7
  rw [hgen]

/-- Persistence operations loadCategories can issue while sweeping; the
adapter also offers record deletion, which the sweep never uses. -/
inductive LoadOp where
  | regenOp (recordId : String) (source : Blob)
  | saveOp (recordId : String)
  | deleteOp (recordId : String)
deriving DecidableEq, Repr

/-- Environment of the sweep: the regeneration call (originalSourceBlob and
the existing levels are its arguments) and the db.saveImage outcome. -/
structure LoadEnv where
  regen : String → Blob → Levels → Except String Levels
  save : String → Levels → Bool

/-- Per-record validate/repair step of loadCategories (src/src/stores/
categories.ts, lines 210-293): a valid record is kept as is; an invalid one is
regenerated from its level4 blob only when that blob is present and non-empty,
the regenerated set is validated and written back, and every failure path
excludes the record without touching the stored data. -/
def loadValidateOne (env : LoadEnv) (img : GameImage) :
    Option GameImage × List LoadOp :=
  if validatePixelationLevels img.pixelationLevels then (some img, [])
  else
    match levelGet img.pixelationLevels 4 with
    | some originalSourceBlob =>
      if 0 < originalSourceBlob.size then
        match env.regen img.id originalSourceBlob img.pixelationLevels with
        | .error _ => (none, [.regenOp img.id originalSourceBlob])
        | .ok regeneratedLevels =>
          if ¬validatePixelationLevels regeneratedLevels then
            (none, [.regenOp img.id originalSourceBlob])
          else if env.save img.id regeneratedLevels then
            (some { img with pixelationLevels := regeneratedLevels },
              [.regenOp img.id originalSourceBlob, .saveOp img.id])
          else (none, [.regenOp img.id originalSourceBlob, .saveOp img.id])
      else (none, [])
    | none => (none, [])

/-- The sweep of loadCategories over the loaded records, producing the
in-memory working set (validatedImages) and the persistence operations. -/
def loadCategoriesSweep (env : LoadEnv) : List GameImage → List GameImage × List LoadOp
  | [] => ([], [])
  | img :: rest =>
    match loadValidateOne env img with
    | (some v, ops) =>
      (v :: (loadCategoriesSweep env rest).1, ops ++ (loadCategoriesSweep env rest).2)
    | (none, ops) =>
      ((loadCategoriesSweep env rest).1, ops ++ (loadCategoriesSweep env rest).2)

theorem loadValidateOne_some (env : LoadEnv) (img : GameImage) (v : GameImage)
    (ops : List LoadOp) (h : loadValidateOne env img = (some v, ops)) :
    validatePixelationLevels v.pixelationLevels = true := by
  unfold loadValidateOne at h
  split at h
  · rename_i hval
    cases h
    exact hval
  · split at h
    · split at h
      · split at h
        · exact absurd h (by simp)
        · split at h
          · exact absurd h (by simp)
          · rename_i hvr
            split at h
            · cases h
              simpa using hvr
            · exact absurd h (by simp)
      · exact absurd h (by simp)
    · exact absurd h (by simp)

theorem loadValidateOne_ops (env : LoadEnv) (img : GameImage) :
    ∀ res op, loadValidateOne env img = res → op ∈ res.2 →
      validatePixelationLevels img.pixelationLevels = false ∧
      ((∃ b4, op = .regenOp img.id b4 ∧
          levelGet img.pixelationLevels 4 = some b4 ∧ 0 < b4.size) ∨
       (op = .saveOp img.id ∧
        ∃ b4 ls2, levelGet img.pixelationLevels 4 = some b4 ∧ 0 < b4.size ∧
          env.regen img.id b4 img.pixelationLevels = .ok ls2 ∧
          validatePixelationLevels ls2 = true)) := by
  intro res op hres hmem
  unfold loadValidateOne at hres
  split at hres
  · rename_i hval
    cases hres
    simp at hmem
  · rename_i hval
    refine ⟨by simpa using hval, ?_⟩
    split at hres
    · rename_i b4 hb4
      split at hres
      · rename_i hsz
        split at hres
        · cases hres
          simp only [List.mem_singleton] at hmem
          subst hmem
          exact Or.inl ⟨b4, rfl, hb4, hsz⟩
        · rename_i ls2 hls2
          split at hres
          · cases hres
            simp only [List.mem_singleton] at hmem
            subst hmem
            exact Or.inl ⟨b4, rfl, hb4, hsz⟩
          · rename_i hvr
            split at hres <;> cases hres <;>
              simp only [List.mem_cons, List.mem_singleton, List.not_mem_nil,
                or_false] at hmem <;>
              rcases hmem with rfl | rfl
            · exact Or.inl ⟨b4, rfl, hb4, hsz⟩
            · exact Or.inr ⟨rfl, b4, ls2, hb4, hsz, hls2, by simpa using hvr⟩
            · exact Or.inl ⟨b4, rfl, hb4, hsz⟩
            · exact Or.inr ⟨rfl, b4, ls2, hb4, hsz, hls2, by simpa using hvr⟩
      · cases hres
        simp at hmem
    · cases hres
      simp at hmem

theorem loadValidateOne_skip (env : LoadEnv) (img : GameImage)
    (hval : validatePixelationLevels img.pixelationLevels = false)
    (hsz : levelSize img.pixelationLevels 4 = 0) :
    loadValidateOne env img = (none, []) := by
  unfold loadValidateOne
  rw [if_neg (by simp [hval])]
  rcases hb : levelGet img.pixelationLevels 4 with _ | b4
  · simp only [hb]
  · have hb40 : b4.size = 0 := by
      unfold levelSize at hsz
      rw [hb] at hsz
      exact hsz
    simp only [hb]
    rw [if_neg (by omega)]

theorem loadCategoriesSweep_mem (env : LoadEnv) :
    ∀ (loaded : List GameImage) (img : GameImage),
      img ∈ (loadCategoriesSweep env loaded).1 →
      validatePixelationLevels img.pixelationLevels = true := by
  intro loaded
  induction loaded with
  | nil =>
    intro img h
    simp [loadCategoriesSweep] at h
  | cons hd rest ih =>
    intro img h
    rw [loadCategoriesSweep] at h
    rcases hone : loadValidateOne env hd with ⟨_ | v, ops⟩
    · rw [hone] at h
      exact ih img h
    · rw [hone] at h
      rcases List.mem_cons.mp h with rfl | hm
      · exact loadValidateOne_some env hd img ops hone
      · exact ih img hm

theorem loadCategoriesSweep_ops (env : LoadEnv) :
    ∀ (loaded : List GameImage) (op : LoadOp),
      op ∈ (loadCategoriesSweep env loaded).2 →
      ∃ img, img ∈ loaded ∧
        validatePixelationLevels img.pixelationLevels = false ∧
        ((∃ b4, op = .regenOp img.id b4 ∧
            levelGet img.pixelationLevels 4 = some b4 ∧ 0 < b4.size) ∨
         (op = .saveOp img.id ∧
          ∃ b4 ls2, levelGet img.pixelationLevels 4 = some b4 ∧ 0 < b4.size ∧
            env.regen img.id b4 img.pixelationLevels = .ok ls2 ∧
            validatePixelationLevels ls2 = true)) := by
  intro loaded
  induction loaded with
  | nil =>
    intro op h
    simp [loadCategoriesSweep] at h
  | cons hd rest ih =>
    intro op h
    rw [loadCategoriesSweep] at h
    rcases hone : loadValidateOne env hd with ⟨ov, ops⟩
    rw [hone] at h
    have hsplit : op ∈ ops ∨ op ∈ (loadCategoriesSweep env rest).2 := by
      rcases ov with _ | v <;> simpa using List.mem_append.mp h
    rcases hsplit with hm | hm
    · obtain ⟨hval, hshape⟩ := loadValidateOne_ops env hd (ov, ops) op hone hm
      exact ⟨hd, List.mem_cons_self _ _, hval, hshape⟩
    · obtain ⟨img, himg, hval, hshape⟩ := ih op hm
      exact ⟨img, List.mem_cons_of_mem _ himg, hval, hshape⟩

/-- C5: after the loadCategories sweep every image in the in-memory working
set passes the four-level validator; every issued regeneration uses exactly
the non-empty level4 blob of an invalid loaded record as source; every
write-back follows a regeneration whose result passed the validator; the
sweep never deletes a stored record; and an invalid record whose level4 slot
is missing or empty is excluded with no regeneration and no write-back
attempted for it. -/
theorem c5_load_sweep (env : LoadEnv) (loaded : List GameImage)
    (hnd : (loaded.map (fun img => img.id)).Nodup) :
    (∀ img, img ∈ (loadCategoriesSweep env loaded).1 →
      validatePixelationLevels img.pixelationLevels = true) ∧
    (∀ id src, LoadOp.regenOp id src ∈ (loadCategoriesSweep env loaded).2 →
      ∃ img, img ∈ loaded ∧ img.id = id ∧
        validatePixelationLevels img.pixelationLevels = false ∧
        levelGet img.pixelationLevels 4 = some src ∧ 0 < src.size) ∧
    (∀ id, LoadOp.saveOp id ∈ (loadCategoriesSweep env loaded).2 →
      ∃ img b4 ls2, img ∈ loaded ∧ img.id = id ∧
        validatePixelationLevels img.pixelationLevels = false ∧
        levelGet img.pixelationLevels 4 = some b4 ∧ 0 < b4.size ∧
        env.regen img.id b4 img.pixelationLevels = .ok ls2 ∧
        validatePixelationLevels ls2 = true) ∧
    (∀ id, LoadOp.deleteOp id ∉ (loadCategoriesSweep env loaded).2) ∧
    (∀ img, img ∈ loaded →
      validatePixelationLevels img.pixelationLevels = false →
      levelSize img.pixelationLevels 4 = 0 →
      img ∉ (loadCategoriesSweep env loaded).1 ∧
      (∀ src, LoadOp.regenOp img.id src ∉ (loadCategoriesSweep env loaded).2) ∧
      LoadOp.saveOp img.id ∉ (loadCategoriesSweep env loaded).2) := by
  refine ⟨loadCategoriesSweep_mem env loaded, ?_, ?_, ?_, ?_⟩
  · intro id src hm
    obtain ⟨img, himg, hval, hshape⟩ := loadCategoriesSweep_ops env loaded _ hm
    rcases hshape with ⟨b4, heq, hb4, hsz⟩ | ⟨heq, _⟩
    · simp only [LoadOp.regenOp.injEq] at heq
      obtain ⟨hid, hsrc⟩ := heq
      subst hsrc
      exact ⟨img, himg, hid.symm, hval, hb4, hsz⟩
    · exact absurd heq (by simp)
  · intro id hm
    obtain ⟨img, himg, hval, hshape⟩ := loadCategoriesSweep_ops env loaded _ hm
    rcases hshape with ⟨b4, heq, _, _⟩ | ⟨heq, b4, ls2, hb4, hsz, hreg, hvr⟩
    · exact absurd heq (by simp)
    · simp only [LoadOp.saveOp.injEq] at heq
      exact ⟨img, b4, ls2, himg, heq.symm, hval, hb4, hsz, hreg, hvr⟩
  · intro id hm
    obtain ⟨img, _, _, hshape⟩ := loadCategoriesSweep_ops env loaded _ hm
    rcases hshape with ⟨b4, heq, _, _⟩ | ⟨heq, _⟩
    · exact absurd heq (by simp)
    · exact absurd heq (by simp)
  · intro img himg hval hsz
    refine ⟨?_, ?_, ?_⟩
    · intro hin
      have := loadCategoriesSweep_mem env loaded img hin
      rw [hval] at this
      exact absurd this (by simp)
    · intro src hm
      obtain ⟨img2, himg2, hval2, hshape⟩ := loadCategoriesSweep_ops env loaded _ hm
      rcases hshape with ⟨b4, heq, hb4, hbsz⟩ | ⟨heq, _⟩
      · simp only [LoadOp.regenOp.injEq] at heq
        obtain ⟨hid, rfl⟩ := heq
        have : img2 = img := List.inj_on_of_nodup_map hnd himg2 himg hid.symm
        subst this
        have hb40 : src.size = 0 := by
          unfold levelSize at hsz
          rw [hb4] at hsz
          exact hsz
        omega
      · exact absurd heq (by simp)
    · intro hm
      obtain ⟨img2, himg2, hval2, hshape⟩ := loadCategoriesSweep_ops env loaded _ hm
      rcases hshape with ⟨b4, heq, _, _⟩ | ⟨heq, b4, ls2, hb4, hbsz, _, _⟩
      · exact absurd heq (by simp)
      · simp only [LoadOp.saveOp.injEq] at heq
        have : img2 = img := List.inj_on_of_nodup_map hnd himg2 himg heq.symm
        subst this
        have hb40 : b4.size = 0 := by
          unfold levelSize at hsz
          rw [hb4] at hsz
          exact hsz
        omega

/-- Sweep environment whose regeneration always fails and saves succeed. -/
def wEnvC5 : LoadEnv :=
  { regen := fun _ _ _ => .error "Failed to load source image for regeneration",
    save := fun _ _ => true }

/-- A valid loaded record. -/
def wImgValidC5 : GameImage :=
  { id := "v1", categoryId := "cat1", originalName := "ok.jpg",
    mimeType := "image/jpeg", originalSize := 100, processedSize := 90,
    width := 10, height := 10, pixelationLevels := wLevels7,
    uploadedAt := 0, processedAt := 0 }

/-- An invalid loaded record whose level4 blob has size 0 (Scenario D). -/
def wImgBad4C5 : GameImage :=
  { id := "b1", categoryId := "cat1", originalName := "bad.jpg",
    mimeType := "image/jpeg", originalSize := 100, processedSize := 90,
    width := 10, height := 10,
    pixelationLevels :=
      [(1, some ⟨5, 1⟩), (2, some ⟨5, 2⟩), (3, some ⟨5, 3⟩), (4, some ⟨0, 9⟩)],
    uploadedAt := 0, processedAt := 0 }

/-- Witness for c5_load_sweep: a record with an empty level4 blob is excluded
from the working set with no regeneration and no write-back attempted. -/
theorem c5_load_sweep_witness :
    (([wImgValidC5, wImgBad4C5].map (fun img => img.id)).Nodup) ∧
    wImgBad4C5 ∈ [wImgValidC5, wImgBad4C5] ∧
    validatePixelationLevels wImgBad4C5.pixelationLevels = false ∧
    levelSize wImgBad4C5.pixelationLevels 4 = 0 ∧
    (wImgBad4C5 ∉ (loadCategoriesSweep wEnvC5 [wImgValidC5, wImgBad4C5]).1 ∧
     (∀ src, LoadOp.regenOp wImgBad4C5.id src ∉
        (loadCategoriesSweep wEnvC5 [wImgValidC5, wImgBad4C5]).2) ∧
     LoadOp.saveOp wImgBad4C5.id ∉
        (loadCategoriesSweep wEnvC5 [wImgValidC5, wImgBad4C5]).2) :=
  ⟨by decide, by decide, by decide, by decide,
    (c5_load_sweep wEnvC5 [wImgValidC5, wImgBad4C5] (by decide)).2.2.2.2 wImgBad4C5
      (by decide) (by decide) (by decide)⟩

theorem cpliGo_ok_blob (env : Env) (canvas : Surface) (quality : ℚ) :
    ∀ (sizes : List Nat) (i : Nat) (acc ls : Levels),
      cpliGo env canvas quality sizes i acc = .ok ls →
      ∀ j p, sizes.get? j = some p →
        ∃ b, createLevelBlob env canvas (i + j) p quality = .ok b ∧
          levelGet ls (i + j + 1) = some b := by
  intro sizes
  induction sizes with
  | nil =>
    intro i acc ls _ j p hj
    simp at hj
  | cons p0 rest ih =>
    intro i acc ls h j p hj
    rcases hb : createLevelBlob env canvas i p0 quality with e | b
    · rw [cpliGo_cons_err env canvas quality p0 rest i acc e hb] at h
      exact absurd h (by simp)
    · rw [cpliGo_cons_ok env canvas quality p0 rest i acc b hb] at h
      rcases j with _ | j
      · simp only [List.get?_cons_zero, Option.some.injEq] at hj
        subst hj
        refine ⟨b, by simpa using hb, ?_⟩
        have hpres := cpliGo_ok_preserved env canvas quality rest (i + 1)
          (setLevel acc (i + 1) b) ls h (i + 1) (by omega)
        rw [show i + 0 + 1 = i + 1 by omega, hpres, levelGet_setLevel_self]
      · simp only [List.get?_cons_succ] at hj
        obtain ⟨b2, hb2, hget⟩ := ih (i + 1) (setLevel acc (i + 1) b) ls h j p hj
        exact ⟨b2, by rw [show i + (j + 1) = i + 1 + j by omega]; exact hb2,
          by rw [show i + (j + 1) + 1 = i + 1 + j + 1 by omega]; exact hget⟩

theorem createLevelBlob_zero_ok (env : Env) (canvas : Surface) (quality : ℚ)
    (i : Nat) :
    ∀ b, createLevelBlob env canvas i 0 quality = .ok b →
      env.encode i canvas quality = .done (some b) ∧ 0 < b.size := by
  intro b h
  unfold createLevelBlob at h
  split at h
  · exact absurd h (by simp)
  · rw [if_pos rfl] at h
    split at h
    · exact absurd h (by simp)
    · exact absurd h (by simp)
    · rename_i b1 heq
      split at h
      · cases h
        exact ⟨heq, by assumption⟩
      · exact absurd h (by simp)

/-- C8: when the level generator reaches a level whose pixelSize is 0, the
block-averaging transform is skipped entirely and the copied surface is
encoded unchanged — a successful blob is exactly what the encoder returned for
the untransformed canvas; the outcome of that branch is always one of success,
the level-naming timeout error, the level-naming empty-blob error, or the
context error (never a hang); a non-zero pixelSize instead goes through
createPixelatedImage; and in a successful default-size run the level-4 blob is
the unchanged encoding of the working surface. -/
theorem c8_zero_block_skip (env : Env) (canvas : Surface) (quality : ℚ) (i : Nat) :
    (∀ b, createLevelBlob env canvas i 0 quality = .ok b →
      env.encode i canvas quality = .done (some b) ∧ 0 < b.size) ∧
    (createLevelBlob env canvas i 0 quality
        = .error (.levelFailed (i + 1) "Could not get canvas context") ∨
     createLevelBlob env canvas i 0 quality
        = .error (.levelFailed (i + 1) (timeoutOriginalMsg (i + 1))) ∨
     createLevelBlob env canvas i 0 quality
        = .error (.levelFailed (i + 1) (emptyOriginalMsg (i + 1))) ∨
     ∃ b, createLevelBlob env canvas i 0 quality = .ok b) ∧
    (∀ p b, p ≠ 0 → createLevelBlob env canvas i p quality = .ok b →
      createPixelatedImage env i canvas p quality = .ok b) ∧
    (∀ ls, createPixelationLevelsInternal env canvas quality
        DEFAULT_PIXELATION_LEVELS = .ok ls →
      ∃ b, levelGet ls 4 = some b ∧
        env.encode 3 canvas quality = .done (some b) ∧ 0 < b.size) := by
  refine ⟨createLevelBlob_zero_ok env canvas quality i, ?_, ?_, ?_⟩
  · unfold createLevelBlob
    split
    · exact Or.inl rfl
    · rw [if_pos rfl]
      split
      · exact Or.inr (Or.inl rfl)
      · exact Or.inr (Or.inr (Or.inl rfl))
      · rename_i b1 heq
        by_cases hsz : 0 < b1.size
        · rw [if_pos hsz]
          exact Or.inr (Or.inr (Or.inr ⟨b1, rfl⟩))
        · rw [if_neg hsz]
          exact Or.inr (Or.inr (Or.inl rfl))
  · intro p b hp h
    unfold createLevelBlob at h
    rw [if_neg hp] at h
    split at h
    · exact absurd h (by simp)
    · split at h
      · exact absurd h (by simp)
      · rename_i b0 heq
        split at h
        · cases h
          exact heq
        · exact absurd h (by simp)
  · intro ls h
    obtain ⟨b, hb, hget⟩ := cpliGo_ok_blob env canvas quality
      DEFAULT_PIXELATION_LEVELS 0 [] ls h 3 0 rfl
    simp only [Nat.zero_add] at hb hget
    have hok := createLevelBlob_zero_ok env canvas quality 3 b hb
    exact ⟨b, hget, hok.1, hok.2⟩

/-- Witness for c8_zero_block_skip: in a successful default-size run the
level-4 blob is exactly the unchanged encoding of the working surface. -/
theorem c8_zero_block_skip_witness :
    createPixelationLevelsInternal wEnvOkC4 wCanvas8 ((9:ℚ)/10)
        DEFAULT_PIXELATION_LEVELS = .ok wLevels7 ∧
    (∃ b, levelGet wLevels7 4 = some b ∧
      wEnvOkC4.encode 3 wCanvas8 ((9:ℚ)/10) = .done (some b) ∧ 0 < b.size) :=
  ⟨rfl, (c8_zero_block_skip wEnvOkC4 wCanvas8 ((9:ℚ)/10) 0).2.2.2 wLevels7 rfl⟩

/-- Uploaded file: name, declared MIME type and byte size. -/
structure FileInfo where
  name : String
  mimeType : String
  size : Nat
deriving DecidableEq, Repr

/-- Embeds isValidImageType (src/src/utils/index.ts, lines 39-42). -/
def isValidImageType (f : FileInfo) : Bool :=
  ["image/jpeg", "image/jpg", "image/png", "image/gif", "image/webp",
    "image/avif"].contains f.mimeType

/-- Embeds isValidImageSize (src/src/utils/index.ts, lines 47-50). -/
def isValidImageSize (f : FileInfo) (maxSizeMB : Nat) : Bool :=
  decide (f.size ≤ maxSizeMB * 1024 * 1024)

/-- Result value of processImage: success with the processed image or failure
with the reason string — never an exception. -/
inductive PResult where
  | ok (img : GameImage)
  | err (msg : String)
deriving DecidableEq, Repr

/-- Environment of one processImage run: the decoded image (none models the
image-load rejection), the resize environment, the per-attempt level
generation environments, and the generated record id. -/
structure ProcEnv where
  loadImage : Option Surface
  renv : ResizeEnv
  envAt : Nat → Env
  newId : String

/-- Embeds processImage (src/unnamed/part_002, lines 22-98): the whole body is
wrapped in try/catch, so the MIME and size rejections and every thrown error
come back through the result value. -/
def processImage (penv : ProcEnv) (file : FileInfo) (categoryId : String)
    (maxWidth : Nat) (quality : ℚ) (minWidth : Nat) (pixelSizes : List Nat) :
    PResult :=
  if ¬isValidImageType file then
    .err "Invalid file type. Supported types: JPG, PNG, GIF, WebP"
  else if ¬isValidImageSize file 10 then
    .err "File too large. Maximum size is 10MB"
  else
    match penv.loadImage with
    | none => .err "Failed to load image"
    | some img =>
      match resizeImage penv.renv img maxWidth quality minWidth with
      | .error m => .err m
      | .ok (canvas, resizedBlob, dims) =>
        match (createPixelationLevels penv.envAt canvas quality pixelSizes).1 with
        | .error e => .err (render e)
        | .ok pixelationLevels =>
          if validatePixelationLevels pixelationLevels then
            .ok { id := penv.newId, categoryId := categoryId,
                  originalName := file.name, mimeType := file.mimeType,
                  originalSize := file.size, processedSize := resizedBlob.size,
                  width := dims.1, height := dims.2,
                  pixelationLevels := pixelationLevels,
                  uploadedAt := 0, processedAt := 0 }
          else .err "Final validation failed: Generated pixelation levels are incomplete"

/-- C10: processImage is a total function into the result type — it always
yields either success with a processed image or failure with a message,
reporting MIME and size rejections through the result value with their exact
messages, and a successful result always carries a record whose four levels
pass the validator and whose metadata comes from the input file. -/
theorem c10_process_image_total (penv : ProcEnv) (file : FileInfo)
    (categoryId : String) (maxWidth : Nat) (quality : ℚ) (minWidth : Nat)
    (pixelSizes : List Nat) :
    (isValidImageType file = false →
      processImage penv file categoryId maxWidth quality minWidth pixelSizes
        = .err "Invalid file type. Supported types: JPG, PNG, GIF, WebP") ∧
    (isValidImageType file = true → isValidImageSize file 10 = false →
      processImage penv file categoryId maxWidth quality minWidth pixelSizes
        = .err "File too large. Maximum size is 10MB") ∧
    (∀ img, processImage penv file categoryId maxWidth quality minWidth pixelSizes
        = .ok img →
      validatePixelationLevels img.pixelationLevels = true ∧
      img.mimeType = file.mimeType ∧ img.originalSize = file.size ∧
      img.categoryId = categoryId ∧ img.originalName = file.name) ∧
    ((∃ img, processImage penv file categoryId maxWidth quality minWidth pixelSizes
        = .ok img) ∨
     (∃ msg, processImage penv file categoryId maxWidth quality minWidth pixelSizes
        = .err msg)) := by
  refine ⟨?_, ?_, ?_, ?_⟩
  · intro hmime
    unfold processImage
    rw [if_pos (by simp [hmime])]
  · intro hmime hsize
    unfold processImage
    rw [if_neg (by simp [hmime]), if_pos (by simp [hsize])]
  · intro img h
    unfold processImage at h
    split at h
    · exact absurd h (by simp)
    · split at h
      · exact absurd h (by simp)
      · split at h
        · exact absurd h (by simp)
        · split at h
          · exact absurd h (by simp)
          · split at h
            · exact absurd h (by simp)
            · split at h
              · rename_i hval
                cases h
                exact ⟨hval, rfl, rfl, rfl, rfl⟩
              · exact absurd h (by simp)
  · rcases h : processImage penv file categoryId maxWidth quality minWidth
        pixelSizes with img | msg
    · exact Or.inl ⟨img, rfl⟩
    · exact Or.inr ⟨msg, rfl⟩

/-- A well-formed JPEG upload. -/
def wFileC10 : FileInfo := ⟨"a.jpg", "image/jpeg", 1000⟩

/-- Fully succeeding processing environment. -/
def wPEnvC10 : ProcEnv :=
  { loadImage := some wImgC6, renv := wEnvC6, envAt := fun _ => wEnvOkC4,
    newId := "id1" }

/-- The record processImage produces for wFileC10 under wPEnvC10. -/
def wRecC10 : GameImage :=
  { id := "id1", categoryId := "cat1", originalName := "a.jpg",
    mimeType := "image/jpeg", originalSize := 1000, processedSize := 10,
    width := 1280, height := 640, pixelationLevels := wLevels7,
    uploadedAt := 0, processedAt := 0 }

theorem processImage_wPEnv_eq :
    processImage wPEnvC10 wFileC10 "cat1" 1280 ((9:ℚ)/10) 800
      DEFAULT_PIXELATION_LEVELS = .ok wRecC10 := by
  have hgen : createPixelationLevelsAux (fun _ => wEnvOkC4) wCanvasC6
      DEFAULT_PIXELATION_LEVELS ((9:ℚ)/10) 0 = (.ok wLevels7, [(0, (9:ℚ)/10)]) :=
    cplAux_ok (fun _ => wEnvOkC4) wCanvasC6 DEFAULT_PIXELATION_LEVELS 0 _ wLevels7 rfl
  unfold processImage
  rw [if_neg (by decide), if_neg (by decide)]
  simp only [show wPEnvC10.loadImage = some wImgC6 from rfl]
  simp only [show resizeImage wPEnvC10.renv wImgC6 1280 ((9:ℚ)/10) 800
      = .ok (wCanvasC6, ⟨10, 0⟩, (1280, 640)) from rfl]
  unfold createPixelationLevels
  simp only [show wPEnvC10.envAt = (fun _ => wEnvOkC4) from rfl]
  simp only [hgen]
  rw [if_pos (by decide : validatePixelationLevels wLevels7 = true)]
  rfl

/-- Witness for c10_process_image_total: a valid JPEG file processed under a
succeeding environment yields a success result whose record passes the
validator and carries the file metadata. -/
theorem c10_process_image_total_witness :
    isValidImageType wFileC10 = true ∧
    (validatePixelationLevels wRecC10.pixelationLevels = true ∧
     wRecC10.mimeType = wFileC10.mimeType ∧ wRecC10.originalSize = wFileC10.size ∧
     wRecC10.categoryId = "cat1" ∧ wRecC10.originalName = wFileC10.name) :=
  ⟨by decide,
    (c10_process_image_total wPEnvC10 wFileC10 "cat1" 1280 ((9:ℚ)/10) 800
      DEFAULT_PIXELATION_LEVELS).2.2.1 wRecC10 processImage_wPEnv_eq⟩

theorem foldl_update_apply (v : Nat → Nat) :
    ∀ (L : List Nat) (d : Nat → Nat) (j : Nat),
      (L.foldl (fun acc i => Function.update acc i (v (i % 4))) d) j
        = if j ∈ L then v (j % 4) else d j := by
  intro L
  induction L with
  | nil => intro d j; simp
  | cons i t ih =>
    intro d j
    rw [List.foldl_cons, ih]
    by_cases hm : j ∈ t
    · rw [if_pos hm, if_pos (List.mem_cons_of_mem _ hm)]
    · rw [if_neg hm]
      by_cases hji : j = i
      · subst hji
        rw [if_pos (List.mem_cons_self _ _)]
        simp [Function.update]
      · rw [if_neg (by simp [hji, hm])]
        simp [Function.update, hji]

theorem pxIdx_mod4 (w a b c : Nat) (hc : c < 4) : pxIdx w a b c % 4 = c := by
  unfold pxIdx
  rw [Nat.mul_comm (b * w + a) 4, Nat.mul_add_mod]
  exact Nat.mod_eq_of_lt hc

theorem pxIdx_inj (w a b c a2 b2 c2 : Nat) (ha : a < w) (ha2 : a2 < w)
    (hc : c < 4) (hc2 : c2 < 4) (h : pxIdx w a b c = pxIdx w a2 b2 c2) :
    a = a2 ∧ b = b2 ∧ c = c2 := by
  unfold pxIdx at h
  have hcc : c = c2 ∧ b * w + a = b2 * w + a2 := by
    have h4 : (b * w + a) * 4 + c = (b2 * w + a2) * 4 + c2 := h
    constructor <;> omega
  obtain ⟨hcc, ht⟩ := hcc
  have hw : 0 < w := by omega
  have hmod : (b * w + a) % w = a := by
    rw [Nat.mul_comm b w, Nat.mul_add_mod]
    exact Nat.mod_eq_of_lt ha
  have hmod2 : (b2 * w + a2) % w = a2 := by
    rw [Nat.mul_comm b2 w, Nat.mul_add_mod]
    exact Nat.mod_eq_of_lt ha2
  have hdiv : (b * w + a) / w = b := by
    rw [Nat.mul_comm b w, Nat.mul_add_div hw, Nat.div_eq_of_lt ha, Nat.add_zero]
  have hdiv2 : (b2 * w + a2) / w = b2 := by
    rw [Nat.mul_comm b2 w, Nat.mul_add_div hw, Nat.div_eq_of_lt ha2, Nat.add_zero]

  refine ⟨?_, ?_, hcc⟩
  · rw [← hmod, ← hmod2, ht]
  · rw [← hdiv, ← hdiv2, ht]

theorem mem_blockPixels (w h p x y a b : Nat) :
    (a, b) ∈ blockPixels w h p x y ↔
      (x ≤ a ∧ a < x + min p (w - x) ∧ y ≤ b ∧ b < y + min p (h - y)) := by
  unfold blockPixels
  simp only [List.mem_flatMap, List.mem_map, List.mem_range, Prod.mk.injEq]
  constructor
  · rintro ⟨dy, hdy, dx, hdx, rfl, rfl⟩
    omega
  · rintro ⟨h1, h2, h3, h4⟩
    exact ⟨b - y, by omega, a - x, by omega, by omega, by omega⟩

theorem mem_blockIndices (w h p x y a b c : Nat) (ha : a < w) (hc : c < 4) :
    pxIdx w a b c ∈ blockIndices w h p x y ↔
      (x ≤ a ∧ a < x + min p (w - x) ∧ y ≤ b ∧ b < y + min p (h - y)) := by
  unfold blockIndices
  simp only [List.mem_flatMap, List.mem_map, List.mem_range]
  constructor
  · rintro ⟨⟨a2, b2⟩, hmem, c2, hc2, heq⟩
    rw [mem_blockPixels] at hmem
    have ha2 : a2 < w := by omega
    obtain ⟨rfl, rfl, _⟩ := pxIdx_inj w a2 b2 c2 a b c ha2 ha hc2 hc heq
    exact hmem
  · intro hb
    exact ⟨(a, b), (mem_blockPixels w h p x y a b).mpr hb, c, hc, rfl⟩

theorem writeBlock_apply (w h p x y : Nat) (v : Nat → Nat) (d : Nat → Nat)
    (j : Nat) :
    writeBlock w h p x y v d j
      = if j ∈ blockIndices w h p x y then v (j % 4) else d j := by
  unfold writeBlock
  exact foldl_update_apply v _ d j

theorem blockPixels_of_count_zero (w h p x y : Nat)
    (h0 : blockCount w h p x y = 0) : blockPixels w h p x y = [] := by
  unfold blockCount at h0
  rcases Nat.mul_eq_zero.mp h0 with hz | hz
  · unfold blockPixels
    rw [hz]
    rfl
  · unfold blockPixels
    rw [hz]
    simp

theorem applyBlock_apply (w h p x y : Nat) (d : Nat → Nat) (a b c : Nat)
    (ha : a < w) (hc : c < 4) :
    applyBlock w h p x y d (pxIdx w a b c)
      = if pxIdx w a b c ∈ blockIndices w h p x y
        then blockAvg d w h p x y c else d (pxIdx w a b c) := by
  unfold applyBlock
  split
  · rw [writeBlock_apply, pxIdx_mod4 w a b c hc]
  · rename_i h0
    rw [if_neg]
    intro hm
    apply h0
    rw [mem_blockIndices w h p x y a b c ha hc] at hm
    unfold blockCount
    have h1 : 0 < min p (w - x) := by omega
    have h2 : 0 < min p (h - y) := by omega
    exact Nat.mul_pos h2 h1

theorem mem_starts (p len : Nat) (hp : 0 < p) (m : Nat) :
    m ∈ starts p len ↔ ∃ k, m = p * k ∧ p * k < len := by
  unfold starts
  simp only [List.mem_map, List.mem_range]
  constructor
  · rintro ⟨k, hk, rfl⟩
    refine ⟨k, rfl, ?_⟩
    have h1 : k + 1 ≤ (len + p - 1) / p := by omega
    have h2 : (k + 1) * p ≤ len + p - 1 := (Nat.le_div_iff_mul_le hp).mp h1
    have h3 : k * p + p ≤ len + p - 1 := by rw [Nat.add_mul, Nat.one_mul] at h2; omega
    rw [Nat.mul_comm]
    omega
  · rintro ⟨k, rfl, hlt⟩
    refine ⟨k, ?_, rfl⟩
    have h3 : (k + 1) * p ≤ len + p - 1 := by
      rw [Nat.add_mul, Nat.one_mul, Nat.mul_comm k p]
      omega
    have h2 : k + 1 ≤ (len + p - 1) / p := (Nat.le_div_iff_mul_le hp).mpr h3
    omega

theorem blockOf_mem_starts (p len a : Nat) (hp : 0 < p) (ha : a < len) :
    p * (a / p) ∈ starts p len := by
  rw [mem_starts p len hp]
  refine ⟨a / p, rfl, ?_⟩
  have h1 := Nat.div_add_mod a p
  have h2 := Nat.mod_lt a hp
  omega

theorem starts_nodup (p len : Nat) (hp : 0 < p) : (starts p len).Nodup := by
  unfold starts
  exact List.Nodup.map (fun x y hxy => Nat.eq_of_mul_eq_mul_left hp hxy)
    (List.nodup_range _)

/-- The block starts visited by the double loop of the pixelation transform,
outer rows first. -/
def allBlocks (w h p : Nat) : List (Nat × Nat) :=
  (starts p h).flatMap (fun y => (starts p w).map (fun x => (x, y)))

theorem pixelateLoop_eq_foldl (w h p : Nat) (d : Nat → Nat) :
    pixelateLoop w h p d
      = (allBlocks w h p).foldl (fun acc e => applyBlock w h p e.1 e.2 acc) d := by
  unfold pixelateLoop allBlocks
  generalize starts p h = ys
  induction ys generalizing d with
  | nil => rfl
  | cons y ys ih =>
    rw [List.flatMap_cons, List.foldl_append, List.foldl_cons, List.foldl_map]
    exact ih _

theorem allBlocks_nodup (w h p : Nat) (hp : 0 < p) : (allBlocks w h p).Nodup := by
  unfold allBlocks
  rw [List.nodup_flatMap]
  constructor
  · intro y _
    exact List.Nodup.map (fun x1 x2 hx => by simpa using congrArg Prod.fst hx)
      (starts_nodup p w hp)
  · apply List.Pairwise.imp ?_ (starts_nodup p h hp)
    intro y1 y2 hne e he1 he2
    simp only [Function.onFun, List.mem_map] at he1 he2
    obtain ⟨x1, _, rfl⟩ := he1
    obtain ⟨x2, _, heq⟩ := he2
    exact hne (by simpa using (congrArg Prod.snd heq).symm)

theorem allBlocks_valid (w h p : Nat) (hp : 0 < p) :
    ∀ e, e ∈ allBlocks w h p →
      (∃ k, e.1 = p * k) ∧ (∃ k, e.2 = p * k) ∧ e.1 < w ∧ e.2 < h := by
  intro e he
  unfold allBlocks at he
  simp only [List.mem_flatMap, List.mem_map] at he
  obtain ⟨y, hy, x, hx, rfl⟩ := he
  rw [mem_starts p h hp] at hy
  rw [mem_starts p w hp] at hx
  obtain ⟨ky, rfl, hky⟩ := hy
  obtain ⟨kx, rfl, hkx⟩ := hx
  exact ⟨⟨kx, rfl⟩, ⟨ky, rfl⟩, hkx, hky⟩

theorem blockOf_mem_allBlocks (w h p a b : Nat) (hp : 0 < p) (ha : a < w)
    (hb : b < h) : (p * (a / p), p * (b / p)) ∈ allBlocks w h p := by
  unfold allBlocks
  simp only [List.mem_flatMap, List.mem_map]
  exact ⟨p * (b / p), blockOf_mem_starts p h b hp hb,
    p * (a / p), blockOf_mem_starts p w a hp ha, rfl⟩

theorem mem_block_iff_blockOf (w p x a : Nat) (hp : 0 < p) (k : Nat)
    (hx : x = p * k) (haw : a < w) :
    (x ≤ a ∧ a < x + min p (w - x)) ↔ p * (a / p) = x := by
  subst hx
  have hd := Nat.div_add_mod a p
  have hm := Nat.mod_lt a hp
  constructor
  · rintro ⟨h1, h2⟩
    have hak : a / p = k := by
      apply Nat.div_eq_of_lt_le
      · rw [Nat.mul_comm k p]
        exact h1
      · rw [Nat.add_mul, Nat.one_mul, Nat.mul_comm k p]
        omega
    rw [hak]
  · intro hba
    constructor <;> omega

theorem pxIdx_mem_blockIndices_iff (w h p bx by0 a b c : Nat) (hp : 0 < p)
    (kx ky : Nat) (hbx : bx = p * kx) (hby : by0 = p * ky)
    (ha : a < w) (hb : b < h) (hc : c < 4) :
    pxIdx w a b c ∈ blockIndices w h p bx by0 ↔
      (p * (a / p) = bx ∧ p * (b / p) = by0) := by
  rw [mem_blockIndices w h p bx by0 a b c ha hc]
  constructor
  · rintro ⟨h1, h2, h3, h4⟩
    exact ⟨(mem_block_iff_blockOf w p bx a hp kx hbx ha).mp ⟨h1, h2⟩,
      (mem_block_iff_blockOf h p by0 b hp ky hby hb).mp ⟨h3, h4⟩⟩
  · rintro ⟨h1, h2⟩
    obtain ⟨g1, g2⟩ := (mem_block_iff_blockOf w p bx a hp kx hbx ha).mpr h1
    obtain ⟨g3, g4⟩ := (mem_block_iff_blockOf h p by0 b hp ky hby hb).mpr h2
    exact ⟨g1, g2, g3, g4⟩

theorem blockAvg_congr (w h p x y c : Nat) (d1 d2 : Nat → Nat)
    (hagree : ∀ a b, (a, b) ∈ blockPixels w h p x y →
      d1 (pxIdx w a b c) = d2 (pxIdx w a b c)) :
    blockAvg d1 w h p x y c = blockAvg d2 w h p x y c := by
  unfold blockAvg blockSumC
  congr 2
  apply List.map_congr_left
  intro e he
  exact hagree e.1 e.2 (by rwa [Prod.mk.eta])

theorem processBlocks_spec (w h p : Nat) (hp : 0 < p) (d0 : Nat → Nat) :
    ∀ (L : List (Nat × Nat)) (dcur : Nat → Nat),
      L.Nodup →
      (∀ e, e ∈ L → (∃ k, e.1 = p * k) ∧ (∃ k, e.2 = p * k) ∧ e.1 < w ∧ e.2 < h) →
      (∀ a b c, a < w → b < h → c < 4 → (p * (a / p), p * (b / p)) ∈ L →
        dcur (pxIdx w a b c) = d0 (pxIdx w a b c)) →
      ∀ a b c, a < w → b < h → c < 4 →
        ((p * (a / p), p * (b / p)) ∈ L →
          (L.foldl (fun acc e => applyBlock w h p e.1 e.2 acc) dcur) (pxIdx w a b c)
            = blockAvg d0 w h p (p * (a / p)) (p * (b / p)) c) ∧
        ((p * (a / p), p * (b / p)) ∉ L →
          (L.foldl (fun acc e => applyBlock w h p e.1 e.2 acc) dcur) (pxIdx w a b c)
            = dcur (pxIdx w a b c)) := by
  intro L
  induction L with
  | nil =>
    intro dcur _ _ _ a b c _ _ _
    exact ⟨fun hmem => absurd hmem (List.not_mem_nil _), fun _ => rfl⟩
  | cons e0 t ih =>
    intro dcur hnd hvalid hagree a b c ha hb hc
    obtain ⟨⟨kx, hkx⟩, ⟨ky, hky⟩, hew, heh⟩ := hvalid e0 (List.mem_cons_self _ _)
    have he0nt : e0 ∉ t := (List.nodup_cons.mp hnd).1
    have hd1 : ∀ a2 b2 c2, a2 < w → b2 < h → c2 < 4 →
        applyBlock w h p e0.1 e0.2 dcur (pxIdx w a2 b2 c2)
          = if (p * (a2 / p), p * (b2 / p)) = e0
            then blockAvg dcur w h p e0.1 e0.2 c2
            else dcur (pxIdx w a2 b2 c2) := by
      intro a2 b2 c2 ha2 hb2 hc2
      rw [applyBlock_apply w h p e0.1 e0.2 dcur a2 b2 c2 ha2 hc2]
      have hiff2 : pxIdx w a2 b2 c2 ∈ blockIndices w h p e0.1 e0.2 ↔
          (p * (a2 / p), p * (b2 / p)) = e0 := by
        rw [pxIdx_mem_blockIndices_iff w h p e0.1 e0.2 a2 b2 c2 hp kx ky hkx hky
          ha2 hb2 hc2, Prod.ext_iff]
      rw [if_congr hiff2 rfl rfl]
    have hagree1 : ∀ a2 b2 c2, a2 < w → b2 < h → c2 < 4 →
        (p * (a2 / p), p * (b2 / p)) ∈ t →
        applyBlock w h p e0.1 e0.2 dcur (pxIdx w a2 b2 c2)
          = d0 (pxIdx w a2 b2 c2) := by
      intro a2 b2 c2 ha2 hb2 hc2 hmt
      rw [hd1 a2 b2 c2 ha2 hb2 hc2,
        if_neg (fun hq : (p * (a2 / p), p * (b2 / p)) = e0 => he0nt (hq ▸ hmt))]
      exact hagree a2 b2 c2 ha2 hb2 hc2 (List.mem_cons_of_mem _ hmt)
    have iht := ih (applyBlock w h p e0.1 e0.2 dcur) (List.nodup_cons.mp hnd).2
      (fun e he => hvalid e (List.mem_cons_of_mem _ he)) hagree1 a b c ha hb hc
    constructor
    · intro hmem
      rcases List.mem_cons.mp hmem with heq | hmemt
      · have hblkt : (p * (a / p), p * (b / p)) ∉ t := by
          rw [heq]
          exact he0nt
        rw [List.foldl_cons, iht.2 hblkt, hd1 a b c ha hb hc, if_pos heq]
        rw [show p * (a / p) = e0.1 from congrArg Prod.fst heq,
          show p * (b / p) = e0.2 from congrArg Prod.snd heq]
        apply blockAvg_congr
        intro a2 b2 hmemp
        rw [mem_blockPixels] at hmemp
        have ha2 : a2 < w := by omega
        have hb2 : b2 < h := by omega
        have hX : p * (a2 / p) = e0.1 :=
          (mem_block_iff_blockOf w p e0.1 a2 hp kx hkx ha2).mp ⟨hmemp.1, hmemp.2.1⟩
        have hY : p * (b2 / p) = e0.2 :=
          (mem_block_iff_blockOf h p e0.2 b2 hp ky hky hb2).mp
            ⟨hmemp.2.2.1, hmemp.2.2.2⟩
        apply hagree a2 b2 c ha2 hb2 hc
        rw [hX, hY, Prod.mk.eta]
        exact List.mem_cons_self _ _
      · rw [List.foldl_cons]
        exact iht.1 hmemt
    · intro hnmem
      have hnt : (p * (a / p), p * (b / p)) ∉ t :=
        fun ht => hnmem (List.mem_cons_of_mem _ ht)
      have hne0 : (p * (a / p), p * (b / p)) ≠ e0 :=
        fun heq => hnmem (heq ▸ List.mem_cons_self _ _)
      rw [List.foldl_cons, iht.2 hnt, hd1 a b c ha hb hc, if_neg hne0]

/-- C7: for every surface and every blockSize > 0, the pixelation transform
partitions the raster into non-overlapping blockSize x blockSize blocks (edge
blocks clipped to the surface bounds) and overwrites every pixel of each block
with the per-block arithmetic mean of each of the four channels over the
original data, rounded to nearest (Math.round): the output value at every
in-bounds channel byte equals the rounded mean of its containing block, and
the dimensions are unchanged. -/
theorem c7_pixelation_block_avg (s : Surface) (p : Nat) (hp : 0 < p)
    (x0 y0 c0 : Nat) (hx : x0 < s.width) (hy : y0 < s.height) (hc : c0 < 4) :
    (pixelatedSurface s p).data (pxIdx s.width x0 y0 c0)
      = blockAvg s.data s.width s.height p (p * (x0 / p)) (p * (y0 / p)) c0 ∧
    (pixelatedSurface s p).width = s.width ∧
    (pixelatedSurface s p).height = s.height := by
  refine ⟨?_, rfl, rfl⟩
  show pixelateLoop s.width s.height p s.data (pxIdx s.width x0 y0 c0) = _
  rw [pixelateLoop_eq_foldl]
  have hspec := processBlocks_spec s.width s.height p hp s.data
    (allBlocks s.width s.height p) s.data
    (allBlocks_nodup s.width s.height p hp) (allBlocks_valid s.width s.height p hp)
    (fun _ _ _ _ _ _ _ => rfl) x0 y0 c0 hx hy hc
  exact hspec.1 (blockOf_mem_allBlocks s.width s.height p x0 y0 hp hx hy)

/-- Witness for c7_pixelation_block_avg: on a concrete 2 x 2 surface with
blockSize 2, every channel byte of pixel (1, 1) holds the rounded mean of its
(single, clipped) block. -/
theorem c7_pixelation_block_avg_witness :
    0 < 2 ∧ (1 : Nat) < 2 ∧
    (pixelatedSurface ⟨2, 2, fun idx => idx⟩ 2).data (pxIdx 2 1 1 2)
      = blockAvg (fun idx => idx) 2 2 2 (2 * (1 / 2)) (2 * (1 / 2)) 2 :=
  ⟨by decide, by decide,
    (c7_pixelation_block_avg ⟨2, 2, fun idx => idx⟩ 2 (by decide) 1 1 2
      (by decide) (by decide) (by decide)).1⟩

end NTT
